import Mathlib

/-!
# Verification of the stigmergy cooperative-transport simulation

Shallow embedding of the simulation core found in `agents.py` and `model.py`:
the spatial grid (bounded, multi-occupancy, obstacle cells), the pheromone
field, the `HeavyObject` and `TransportAgent` per-activation step functions,
the per-tick evaporation/termination phase, and both

* a nondeterministic small-step relation `MicroStep` quantifying over the
  scheduler's activation order and every `random.choice` outcome (used for
  invariant and reachability claims), and
* a deterministic seeded model (`initModel`, `modelStep`, `runModel`) in which
  all randomness is drawn from an explicit linear-congruential generator,
  modelling a run under a fixed random seed.

Conventions of the embedding:
* Grid coordinates are integer pairs; the grid bounds `0 ≤ x < width`,
  `0 ≤ y < height` are checked exactly where the Python code checks them.
* Python `float` values (pheromone amounts, decay rates) are embedded as
  rationals; the `1e-6` evaporation threshold is `1 / 1000000`.
* Python counts (`required_carriers`, `max_steps`, ...) are embedded as `Nat`.
* A Python `set` of agent ids is a `Finset Nat`; `None`-able fields are
  `Option`.
* `random.choice xs` is embedded as `xs.getD (choice % xs.length) _` for a
  choice number that is universally quantified in the relational semantics and
  drawn from the LCG in the deterministic model.
* The Mesa grid is not duplicated: each agent's stored position is the single
  source of truth (the code and its spec maintain the stored-position/grid
  bucket invariant), so `grid.get_cell_list_contents([p])` becomes a filter of
  the registry by position equality.
-/

/-- A grid coordinate, as in the Python `(x, y)` tuples. -/
abbrev GridPos := Int × Int

/-- State from `TransportAgent.__init__`: id, position, latching flag, carried
object id, and the last pheromone amount deposited. -/
structure TransportAgent where
  uid : Nat
  pos : GridPos
  latching : Bool
  carrying_object_id : Option Nat
  last_deposit : ℚ
deriving DecidableEq

/-- State from `HeavyObject.__init__`. -/
structure HeavyObject where
  uid : Nat
  pos : GridPos
  required_carriers : Nat
  current_carriers : Finset Nat
  discovered : Bool
  completed : Bool
  discovery_time : Option Nat
  completion_time : Option Nat
  max_carriers_used : Nat
  dropoff_cell : GridPos
deriving DecidableEq

/-- The latched agents still physically on the object's cell: the Python
`[a for a in cell_contents if isinstance(a, TransportAgent) and a.unique_id in
self.current_carriers]` at `self.pos`. -/
def live_carriers (agents : List TransportAgent) (o : HeavyObject) :
    List TransportAgent :=
  agents.filter (fun a => decide (a.pos = o.pos ∧ a.uid ∈ o.current_carriers))

/-- Lazy discovery-time stamping at the top of `HeavyObject.step`. -/
def stamp_discovery (t : Nat) (o : HeavyObject) : HeavyObject :=
  if o.discovered = true ∧ o.discovery_time = none then
    { o with discovery_time := some t }
  else o

/-- The running-maximum update of `max_carriers_used` in `HeavyObject.step`. -/
def update_max (n : Nat) (o : HeavyObject) : HeavyObject :=
  if o.max_carriers_used < n then { o with max_carriers_used := n } else o

/-- The single-axis Manhattan-reduction move candidates computed in
`HeavyObject.step` from `dx`/`dy` toward `dropoff_cell`. -/
def heavy_candidate_moves (o : HeavyObject) : List GridPos :=
  (if o.dropoff_cell.1 - o.pos.1 < 0 then [(o.pos.1 - 1, o.pos.2)]
   else if 0 < o.dropoff_cell.1 - o.pos.1 then [(o.pos.1 + 1, o.pos.2)]
   else []) ++
  (if o.dropoff_cell.2 - o.pos.2 < 0 then [(o.pos.1, o.pos.2 - 1)]
   else if 0 < o.dropoff_cell.2 - o.pos.2 then [(o.pos.1, o.pos.2 + 1)]
   else [])

/-- In-bounds and not occupied by an `Obstacle`: the filter applied to the
heavy object's candidate moves. -/
def cell_free (w h : Nat) (obstacles : List GridPos) (p : GridPos) : Bool :=
  decide (0 ≤ p.1) && decide (p.1 < (w : Int)) &&
  decide (0 ≤ p.2) && decide (p.2 < (h : Int)) &&
  !(decide (p ∈ obstacles))

/-- The `valid_moves` list of `HeavyObject.step`. -/
def heavy_valid_moves (w h : Nat) (obstacles : List GridPos)
    (o : HeavyObject) : List GridPos :=
  (heavy_candidate_moves o).filter (cell_free w h obstacles)

/-- Moving (and, on completion, detaching) every latched agent still on the
object's old cell: the `for agent in latched_agents` loops of
`HeavyObject.step`, expressed over the whole registry. -/
def move_carriers (old_pos new_pos : GridPos) (cs : Finset Nat)
    (detach : Bool) (agents : List TransportAgent) : List TransportAgent :=
  agents.map (fun a =>
    if a.pos = old_pos ∧ a.uid ∈ cs then
      (if detach then
        { a with pos := new_pos, latching := false, carrying_object_id := none }
      else { a with pos := new_pos })
    else a)

/-- The method `HeavyObject.step`: early return when completed; lazy discovery stamp;
recomputation of the live carrier list; running-max update; the
cooperative-lift gate; Manhattan-reduction move candidates filtered to
in-bounds obstacle-free cells; `random.choice` over the survivors; atomic move
of object and live carriers; completion bookkeeping on arrival at
`dropoff_cell`.  (The live-carrier list and move candidates are computed from
`o`; the preceding stamps change only `discovery_time` and
`max_carriers_used`, so this matches the Python, which computes them from the
already-stamped `self`.)  Returns the updated object and registry. -/
def HeavyObject.step (w h : Nat) (obstacles : List GridPos) (t : Nat)
    (agents : List TransportAgent) (o : HeavyObject) (choice : Nat) :
    HeavyObject × List TransportAgent :=
  if o.completed = true then (o, agents)
  else
    let o2 := update_max (live_carriers agents o).length (stamp_discovery t o)
    if (live_carriers agents o).length < o.required_carriers then (o2, agents)
    else
      let vm := heavy_valid_moves w h obstacles o
      if vm = [] then (o2, agents)
      else
        let np := vm.getD (choice % vm.length) (0, 0)
        if np = o.dropoff_cell then
          ({ o2 with
             pos := np, completed := true, completion_time := some t,
             max_carriers_used :=
               max o2.max_carriers_used (live_carriers agents o).length,
             current_carriers := ∅ },
           move_carriers o.pos np o.current_carriers true agents)
        else
          ({ o2 with pos := np },
           move_carriers o.pos np o.current_carriers false agents)

/-- Outcome of the current-cell inspection in `TransportAgent.step`. -/
inductive LatchResult where
  | no_heavy : LatchResult
  | full : LatchResult
  | latched (ouid : Nat) : LatchResult
deriving DecidableEq

/-- The current-cell inspection of `TransportAgent.step`: find the first
uncompleted `HeavyObject` on the agent's cell (`heavy_objs[0]`), mark it
discovered, and latch when its stored carrier set is still below
`required_carriers`.  Returns the updated object list and what happened. -/
def step_on_objects (a : TransportAgent) :
    List HeavyObject → List HeavyObject × LatchResult
  | [] => ([], LatchResult.no_heavy)
  | o :: rest =>
    if o.pos = a.pos ∧ o.completed = false then
      if o.current_carriers.card < o.required_carriers then
        ({ o with
           discovered := true,
           current_carriers := insert a.uid o.current_carriers } :: rest,
         LatchResult.latched o.uid)
      else
        ({ o with discovered := true } :: rest, LatchResult.full)
    else
      let r := step_on_objects a rest
      (o :: r.1, r.2)

/-- The method `TransportAgent.leave_pheromone`: add the fixed deposit at the current
cell and record it in `last_deposit`. -/
def leave_pheromone (deposit : ℚ) (pher : GridPos → ℚ) (a : TransportAgent) :
    (GridPos → ℚ) × TransportAgent :=
  (fun p => if p = a.pos then pher p + deposit else pher p,
   { a with last_deposit := deposit })

/-- The 8 Moore-adjacent coordinates restricted to the grid bounds:
`grid.get_neighborhood(pos, moore=True, include_center=False)` on a
non-torus grid. -/
def moore_neighborhood (w h : Nat) (p : GridPos) : List GridPos :=
  [(p.1 - 1, p.2 - 1), (p.1 - 1, p.2), (p.1 - 1, p.2 + 1),
   (p.1, p.2 - 1), (p.1, p.2 + 1),
   (p.1 + 1, p.2 - 1), (p.1 + 1, p.2), (p.1 + 1, p.2 + 1)].filter
    (fun q => decide (0 ≤ q.1) && decide (q.1 < (w : Int)) &&
      decide (0 ≤ q.2) && decide (q.2 < (h : Int)))

/-- Accumulator of the neighbor loop in
`TransportAgent.move_by_pheromone_or_random`. -/
structure ScanAcc where
  free_neighbors : List GridPos
  highest_pher : ℚ
  best_cells : List GridPos
deriving DecidableEq

/-- One iteration of the neighbor loop: skip obstacle cells, track the
highest pheromone value seen and the cells tied at it, and collect every
obstacle-free neighbor. -/
def scan_step (obstacles : List GridPos) (pher : GridPos → ℚ)
    (acc : ScanAcc) (n : GridPos) : ScanAcc :=
  if n ∈ obstacles then acc
  else
    let v := pher n
    let acc1 :=
      if acc.highest_pher < v then
        { acc with highest_pher := v, best_cells := [n] }
      else if v = acc.highest_pher then
        { acc with best_cells := acc.best_cells ++ [n] }
      else acc
    { acc1 with free_neighbors := acc1.free_neighbors ++ [n] }

/-- The whole neighbor loop, starting from `highest_pher = -1.0` as in the
Python. -/
def scan_neighbors (obstacles : List GridPos) (pher : GridPos → ℚ)
    (ns : List GridPos) : ScanAcc :=
  ns.foldl (scan_step obstacles pher) ⟨[], -1, []⟩

/-- The method `TransportAgent.move_by_pheromone_or_random`: follow the gradient when the
highest pheromone value among obstacle-free neighbors is positive, otherwise
random-walk among the obstacle-free neighbors, staying put when none exist. -/
def move_by_pheromone_or_random (w h : Nat) (obstacles : List GridPos)
    (pher : GridPos → ℚ) (a : TransportAgent) (choice : Nat) :
    TransportAgent :=
  let acc := scan_neighbors obstacles pher (moore_neighborhood w h a.pos)
  if 0 < acc.highest_pher ∧ acc.best_cells ≠ [] then
    { a with pos := acc.best_cells.getD (choice % acc.best_cells.length) (0, 0) }
  else if acc.free_neighbors = [] then a
  else
    { a with
      pos := acc.free_neighbors.getD (choice % acc.free_neighbors.length) (0, 0) }

/-- The method `TransportAgent.step`: no-op while latched and carrying; otherwise inspect
the current cell for an uncompleted `HeavyObject` and discover/latch; otherwise
deposit pheromone and move by gradient or randomly.  Returns the updated
agent, object list, and pheromone field. -/
def TransportAgent.step (w h : Nat) (obstacles : List GridPos) (deposit : ℚ)
    (objects : List HeavyObject) (pher : GridPos → ℚ) (a : TransportAgent)
    (choice : Nat) :
    TransportAgent × List HeavyObject × (GridPos → ℚ) :=
  if a.latching = true ∧ a.carrying_object_id ≠ none then (a, objects, pher)
  else
    let r := step_on_objects a objects
    match r.2 with
    | LatchResult.latched ouid =>
        ({ a with latching := true, carrying_object_id := some ouid },
         r.1, pher)
    | LatchResult.full => (a, r.1, pher)
    | LatchResult.no_heavy =>
        let pa := leave_pheromone deposit pher a
        (move_by_pheromone_or_random w h obstacles pa.1 pa.2 choice,
         objects, pa.1)

/-- Whole simulation state: the configuration fields of `TransportModel`
together with the obstacle positions, the object and transporter registries,
the pheromone field, the tick counter and the running flag. -/
structure SimState where
  width : Nat
  height : Nat
  obstacles : List GridPos
  objects : List HeavyObject
  agents : List TransportAgent
  pheromone : GridPos → ℚ
  pheromone_decay : ℚ
  pheromone_deposit : ℚ
  num_objects : Nat
  max_steps : Nat
  step_count : Nat
  running : Bool

/-- One cell of the evaporation pass: multiply by `(1 - decay)`, then snap to
`0` below the `1e-6` threshold (`self.pheromone *= (1 - decay)` followed by
`self.pheromone[self.pheromone < 1e-6] = 0`). -/
def evapCell (d v : ℚ) : ℚ :=
  if v * (1 - d) < 1 / 1000000 then 0 else v * (1 - d)

/-- The whole-field evaporation pass. -/
def evaporate (d : ℚ) (f : GridPos → ℚ) : GridPos → ℚ :=
  fun p => evapCell d (f p)

/-- The counter `TransportModel.count_completed_objects`. -/
def count_completed_objects (s : SimState) : Nat :=
  (s.objects.filter (fun o => o.completed)).length

/-- The controller's end-of-tick phase in `TransportModel.step`: evaporate the
field, increment the tick counter, and clear `running` when the counter
reaches `max_steps` or every object is completed.  (The `DataCollector`
snapshot between evaporation and the counter increment reads but never writes
simulation state and is omitted.) -/
def tickEnd (s : SimState) : SimState :=
  let s1 := { s with
              pheromone := evaporate s.pheromone_decay s.pheromone,
              step_count := s.step_count + 1 }
  if s1.max_steps ≤ s1.step_count ∨ count_completed_objects s1 = s1.num_objects
  then { s1 with running := false }
  else s1

/-- Activation of one `HeavyObject` (given as a zipper into the registry). -/
def heavyActivate (s : SimState) (pre post : List HeavyObject)
    (o : HeavyObject) (choice : Nat) : SimState :=
  let r := HeavyObject.step s.width s.height s.obstacles s.step_count
    s.agents o choice
  { s with objects := pre ++ r.1 :: post, agents := r.2 }

/-- Activation of one `TransportAgent` (given as a zipper into the
registry). -/
def transportActivate (s : SimState) (pre post : List TransportAgent)
    (a : TransportAgent) (choice : Nat) : SimState :=
  let r := TransportAgent.step s.width s.height s.obstacles
    s.pheromone_deposit s.objects s.pheromone a choice
  { s with
    agents := pre ++ r.1 :: post, objects := r.2.1, pheromone := r.2.2 }

/-- Nondeterministic small-step relation: any single agent activation with any
`random.choice` outcome, or the controller's end-of-tick phase.  Every
execution of the seeded scheduler (each registered agent activated once per
tick in a shuffled order, then the end-of-tick phase) is a sequence of these
micro-steps, so any invariant of this relation holds of every run.  Obstacle
activations are omitted: `Obstacle.step` is `pass`. -/
inductive MicroStep : SimState → SimState → Prop
  | heavy (s : SimState) (pre post : List HeavyObject) (o : HeavyObject)
      (choice : Nat) (hobj : s.objects = pre ++ o :: post) :
      MicroStep s (heavyActivate s pre post o choice)
  | transport (s : SimState) (pre post : List TransportAgent)
      (a : TransportAgent) (choice : Nat) (hag : s.agents = pre ++ a :: post) :
      MicroStep s (transportActivate s pre post a choice)
  | tick (s : SimState) : MicroStep s (tickEnd s)

/-- Reachability over micro-steps. -/
def Reachable (s t : SimState) : Prop := Relation.ReflTransGen MicroStep s t

/-- What `TransportModel.__init__` guarantees of a freshly constructed state:
distinct agent ids (from `next_id`), freshly initialized objects and
transporters, the stored object count matching the registry, the running
flag set, and the tick counter at zero. -/
def InitOk (s : SimState) : Prop :=
  (s.agents.map TransportAgent.uid).Nodup ∧
  (s.objects.map HeavyObject.uid).Nodup ∧
  (∀ o ∈ s.objects, o.current_carriers = ∅ ∧ o.completed = false) ∧
  (∀ a ∈ s.agents, a.latching = false ∧ a.carrying_object_id = none) ∧
  s.num_objects = s.objects.length ∧
  s.running = true ∧
  s.step_count = 0

instance (s : SimState) : Decidable (InitOk s) := by
  unfold InitOk; infer_instance

/-!
## Deterministic seeded model

All randomness of a fixed-seed run (`random.seed(seed)` for the module-level
`random` used by placement and `random.choice`, and the seeded scheduler
shuffle) is modelled by one explicit linear-congruential generator threaded
through construction and the tick loop, so a run is a pure function of the
configuration and the seed.
-/

/-- One step of the pseudo-random generator modelling the seeded `random`
module (glibc-style linear-congruential parameters). -/
def rngNext (g : Nat) : Nat := (g * 1103515245 + 12345) % 2 ^ 31

/-- Truncation of a rational toward zero, as Python `int()`. -/
def ratTrunc (q : ℚ) : Int := if q < 0 then -((-q).floor) else q.floor

/-- Drawing `k` elements without replacement (by repeatedly picking a
remaining index from the generator): the deterministic model of
`random.sample` once its size check has passed. -/
def sampleAux (dflt : α) : Nat → List α → Nat → List α × Nat
  | 0, _, g => ([], g)
  | k + 1, l, g =>
    let g2 := rngNext g
    let i := g2 % l.length
    let r := sampleAux dflt k (l.eraseIdx i) g2
    (l.getD i dflt :: r.1, r.2)

/-- The call `random.sample(l, k)` for a possibly negative requested size: raises
(`Except.error`) when the size is negative or exceeds the population, exactly
the `ValueError` Python raises. -/
def sampleInt (dflt : α) (l : List α) (k : Int) (g : Nat) :
    Except String (List α × Nat) :=
  if k < 0 ∨ (l.length : Int) < k then
    Except.error "Sample larger than population or is negative"
  else Except.ok (sampleAux dflt k.toNat l g)

/-- The list `[(x, y) for x in range(self.width) for y in range(self.height)]`. -/
def allPositions (w h : Nat) : List GridPos :=
  (List.range w).flatMap (fun x =>
    (List.range h).map (fun y => (Int.ofNat x, Int.ofNat y)))

/-- The obstacle count `int(total_cells * obstacle_fraction)` of
`_place_obstacles`. -/
def obstacleCount (w h : Nat) (frac : ℚ) : Int :=
  ratTrunc ((w * h : ℚ) * frac)

/-- The cells of `cells` not occupied by anything in `occupied`: the
empty-cell recomputation between placement phases. -/
def emptyAfter (cells occupied : List GridPos) : List GridPos :=
  cells.filter (fun p => !(decide (p ∈ occupied)))

/-- The placement phase of `TransportModel.__init__`: sample obstacle
positions from all cells, then object positions from the remaining empty
cells, then transporter positions from the cells still empty.  Only the
`random.sample` size checks can fail (as a short-circuiting exception); no
configuration value is otherwise validated.  Returns the three position
lists and the generator. -/
def placeAll (w h : Nat) (frac : ℚ) (nobj nag : Nat) (seed : Nat) :
    Except String ((List GridPos × List GridPos × List GridPos) × Nat) :=
  Except.bind
    (sampleInt ((0 : Int), (0 : Int)) (allPositions w h)
      (obstacleCount w h frac) seed)
    (fun pr1 => Except.bind
      (sampleInt ((0 : Int), (0 : Int))
        (emptyAfter (allPositions w h) pr1.1) (nobj : Int) pr1.2)
      (fun pr2 => Except.bind
        (sampleInt ((0 : Int), (0 : Int))
          (emptyAfter (emptyAfter (allPositions w h) pr1.1) pr2.1)
          (nag : Int) pr2.2)
        (fun pr3 => Except.ok ((pr1.1, pr2.1, pr3.1), pr3.2))))

/-- Recognized configuration options of `TransportModel.__init__`. -/
structure Config where
  width : Nat
  height : Nat
  initial_agents : Nat
  initial_objects : Nat
  obstacle_fraction : ℚ
  pheromone_decay : ℚ
  pheromone_deposit : ℚ
  required_carriers : Nat
  max_steps : Nat
deriving DecidableEq

/-- Assembling the constructed state from the placement results: fresh
objects (with `next_id`-style distinct ids continuing after the obstacles)
and fresh transporters, a zero pheromone field, tick counter `0`, and the
running flag set. -/
def buildState (cfg : Config)
    (pr : (List GridPos × List GridPos × List GridPos) × Nat) : SimState :=
  let obsPos := pr.1.1
  let objPos := pr.1.2.1
  let agPos := pr.1.2.2
  { width := cfg.width
    height := cfg.height
    obstacles := obsPos
    objects := objPos.enum.map (fun q =>
      { uid := obsPos.length + 1 + q.1
        pos := q.2
        required_carriers := cfg.required_carriers
        current_carriers := ∅
        discovered := false
        completed := false
        discovery_time := none
        completion_time := none
        max_carriers_used := 0
        dropoff_cell := (0, 0) })
    agents := agPos.enum.map (fun q =>
      { uid := obsPos.length + objPos.length + 1 + q.1
        pos := q.2
        latching := false
        carrying_object_id := none
        last_deposit := 0 })
    pheromone := fun _ => 0
    pheromone_decay := cfg.pheromone_decay
    pheromone_deposit := cfg.pheromone_deposit
    num_objects := cfg.initial_objects
    max_steps := cfg.max_steps
    step_count := 0
    running := true }

/-- The constructor `TransportModel.__init__` under a fixed seed: run placement, then build
the state.  An `Except.error` is a constructor exception raised before any
tick; no partially constructed model escapes. -/
def initModel (cfg : Config) (seed : Nat) : Except String (SimState × Nat) :=
  (placeAll cfg.width cfg.height cfg.obstacle_fraction cfg.initial_objects
    cfg.initial_agents seed).map (fun pr => (buildState cfg pr, pr.2))

/-- Whether construction succeeded. -/
def exceptOk : Except String α → Bool
  | Except.ok _ => true
  | Except.error _ => false

/-- The registered steppable agents, as registry references (`Obstacle.step`
is `pass`, so obstacles are omitted): `Sum.inl i` is the `i`-th heavy object,
`Sum.inr j` the `j`-th transporter. -/
def schedRefs (s : SimState) : List (Nat ⊕ Nat) :=
  (List.range s.objects.length).map Sum.inl ++
  (List.range s.agents.length).map Sum.inr

/-- Index-based heavy-object activation (used by the deterministic
scheduler). -/
def applyHeavy (s : SimState) (i choice : Nat) : SimState :=
  match s.objects.get? i with
  | none => s
  | some o =>
    let r := HeavyObject.step s.width s.height s.obstacles s.step_count
      s.agents o choice
    { s with objects := s.objects.set i r.1, agents := r.2 }

/-- Index-based transporter activation (used by the deterministic
scheduler). -/
def applyTransport (s : SimState) (j choice : Nat) : SimState :=
  match s.agents.get? j with
  | none => s
  | some a =>
    let r := TransportAgent.step s.width s.height s.obstacles
      s.pheromone_deposit s.objects s.pheromone a choice
    { s with
      agents := s.agents.set j r.1, objects := r.2.1, pheromone := r.2.2 }

/-- One scheduler activation: draw a choice number for the agent's
`random.choice` calls and run its step. -/
def applyRef (sg : SimState × Nat) (r : Nat ⊕ Nat) : SimState × Nat :=
  let g2 := rngNext sg.2
  match r with
  | Sum.inl i => (applyHeavy sg.1 i g2, g2)
  | Sum.inr j => (applyTransport sg.1 j g2, g2)

/-- The call `self.schedule.step()`: shuffle the registered agents with the seeded
generator, then activate each exactly once in that order. -/
def activationPhase (sg : SimState × Nat) : SimState × Nat :=
  let refs := schedRefs sg.1
  let sh := sampleAux (Sum.inl 0) refs.length refs sg.2
  sh.1.foldl applyRef (sg.1, sh.2)

/-- One full tick of `TransportModel.step`: all agent activations in the
shuffled order, then the end-of-tick phase (evaporation, data collection,
counter increment, termination check). -/
def modelStep (sg : SimState × Nat) : SimState × Nat :=
  let r := activationPhase sg
  (tickEnd r.1, r.2)

/-- A fixed-seed run: construct the model and execute `n` ticks. -/
def runModel (cfg : Config) (seed n : Nat) : Except String (SimState × Nat) :=
  (initModel cfg seed).map (fun sg => modelStep^[n] sg)

/-!
## Basic lemmas about the embedded step functions
-/

@[simp] lemma stamp_discovery_pos (t : Nat) (o : HeavyObject) :
    (stamp_discovery t o).pos = o.pos := by
  unfold stamp_discovery; split <;> rfl

@[simp] lemma stamp_discovery_uid (t : Nat) (o : HeavyObject) :
    (stamp_discovery t o).uid = o.uid := by
  unfold stamp_discovery; split <;> rfl

@[simp] lemma stamp_discovery_completed (t : Nat) (o : HeavyObject) :
    (stamp_discovery t o).completed = o.completed := by
  unfold stamp_discovery; split <;> rfl

@[simp] lemma stamp_discovery_carriers (t : Nat) (o : HeavyObject) :
    (stamp_discovery t o).current_carriers = o.current_carriers := by
  unfold stamp_discovery; split <;> rfl

@[simp] lemma stamp_discovery_required (t : Nat) (o : HeavyObject) :
    (stamp_discovery t o).required_carriers = o.required_carriers := by
  unfold stamp_discovery; split <;> rfl

@[simp] lemma stamp_discovery_dropoff (t : Nat) (o : HeavyObject) :
    (stamp_discovery t o).dropoff_cell = o.dropoff_cell := by
  unfold stamp_discovery; split <;> rfl

@[simp] lemma stamp_discovery_max (t : Nat) (o : HeavyObject) :
    (stamp_discovery t o).max_carriers_used = o.max_carriers_used := by
  unfold stamp_discovery; split <;> rfl

@[simp] lemma update_max_pos (n : Nat) (o : HeavyObject) :
    (update_max n o).pos = o.pos := by
  unfold update_max; split <;> rfl

@[simp] lemma update_max_uid (n : Nat) (o : HeavyObject) :
    (update_max n o).uid = o.uid := by
  unfold update_max; split <;> rfl

@[simp] lemma update_max_completed (n : Nat) (o : HeavyObject) :
    (update_max n o).completed = o.completed := by
  unfold update_max; split <;> rfl

@[simp] lemma update_max_carriers (n : Nat) (o : HeavyObject) :
    (update_max n o).current_carriers = o.current_carriers := by
  unfold update_max; split <;> rfl

@[simp] lemma update_max_required (n : Nat) (o : HeavyObject) :
    (update_max n o).required_carriers = o.required_carriers := by
  unfold update_max; split <;> rfl

@[simp] lemma update_max_dropoff (n : Nat) (o : HeavyObject) :
    (update_max n o).dropoff_cell = o.dropoff_cell := by
  unfold update_max; split <;> rfl

lemma update_max_ge (n : Nat) (o : HeavyObject) :
    n ≤ (update_max n o).max_carriers_used ∧
    o.max_carriers_used ≤ (update_max n o).max_carriers_used := by
  unfold update_max
  split
  · exact ⟨Nat.le_refl n, Nat.le_of_lt (by assumption)⟩
  · exact ⟨Nat.le_of_not_lt (by assumption), Nat.le_refl _⟩

/-- Every exit of `HeavyObject.step`, with the branch conditions that led
there. -/
lemma heavy_step_cases (w h : Nat) (obstacles : List GridPos) (t : Nat)
    (agents : List TransportAgent) (o : HeavyObject) (choice : Nat) :
    (o.completed = true ∧
      HeavyObject.step w h obstacles t agents o choice = (o, agents)) ∨
    (o.completed = false ∧
      ((live_carriers agents o).length < o.required_carriers ∨
        heavy_valid_moves w h obstacles o = []) ∧
      HeavyObject.step w h obstacles t agents o choice =
        (update_max (live_carriers agents o).length (stamp_discovery t o),
         agents)) ∨
    (o.completed = false ∧
      o.required_carriers ≤ (live_carriers agents o).length ∧
      heavy_valid_moves w h obstacles o ≠ [] ∧
      (let vm := heavy_valid_moves w h obstacles o
       let np := vm.getD (choice % vm.length) (0, 0)
       let o2 := update_max (live_carriers agents o).length (stamp_discovery t o)
       (np ≠ o.dropoff_cell ∧
         HeavyObject.step w h obstacles t agents o choice =
           ({ o2 with pos := np },
            move_carriers o.pos np o.current_carriers false agents)) ∨
       (np = o.dropoff_cell ∧
         HeavyObject.step w h obstacles t agents o choice =
           ({ o2 with
              pos := np, completed := true, completion_time := some t,
              max_carriers_used :=
                max o2.max_carriers_used (live_carriers agents o).length,
              current_carriers := ∅ },
            move_carriers o.pos np o.current_carriers true agents)))) := by
  by_cases hc : o.completed = true
  · left
    refine ⟨hc, ?_⟩
    unfold HeavyObject.step
    simp only [if_pos hc]
  · have hc' : o.completed = false := by
      cases hcv : o.completed
      · rfl
      · exact absurd hcv hc
    by_cases hl : (live_carriers agents o).length < o.required_carriers
    · right; left
      refine ⟨hc', Or.inl hl, ?_⟩
      unfold HeavyObject.step
      simp only [if_neg hc, if_pos hl]
    · by_cases hv : heavy_valid_moves w h obstacles o = []
      · right; left
        refine ⟨hc', Or.inr hv, ?_⟩
        unfold HeavyObject.step
        simp only [if_neg hc, if_neg hl, if_pos hv]
      · right; right
        refine ⟨hc', Nat.le_of_not_lt hl, hv, ?_⟩
        by_cases hd : (heavy_valid_moves w h obstacles o).getD
            (choice % (heavy_valid_moves w h obstacles o).length) (0, 0) =
            o.dropoff_cell
        · right
          refine ⟨hd, ?_⟩
          unfold HeavyObject.step
          simp only [if_neg hc, if_neg hl, if_neg hv, if_pos hd]
        · left
          refine ⟨hd, ?_⟩
          unfold HeavyObject.step
          simp only [if_neg hc, if_neg hl, if_neg hv, if_neg hd]

/-- The heavy-object step never changes the object's identity, requirement,
or dropoff target. -/
lemma heavy_step_const (w h : Nat) (obstacles : List GridPos) (t : Nat)
    (agents : List TransportAgent) (o : HeavyObject) (choice : Nat) :
    (HeavyObject.step w h obstacles t agents o choice).1.uid = o.uid ∧
    (HeavyObject.step w h obstacles t agents o choice).1.required_carriers =
      o.required_carriers ∧
    (HeavyObject.step w h obstacles t agents o choice).1.dropoff_cell =
      o.dropoff_cell := by
  rcases heavy_step_cases w h obstacles t agents o choice with
    ⟨_, he⟩ | ⟨_, _, he⟩ | ⟨_, _, _, hmv⟩
  · rw [he]; exact ⟨rfl, rfl, rfl⟩
  · rw [he]; simp
  · rcases hmv with ⟨_, he⟩ | ⟨_, he⟩ <;> rw [he] <;> simp

/-- An object already sitting on its dropoff cell generates no move
candidates. -/
lemma heavy_candidate_moves_at_dropoff (o : HeavyObject)
    (hp : o.pos = o.dropoff_cell) : heavy_candidate_moves o = [] := by
  unfold heavy_candidate_moves
  rw [hp]
  simp

/-- Hence such an object's step leaves position, completion flag and carriers
unchanged and does not touch the registry. -/
lemma heavy_step_at_dropoff (w h : Nat) (obstacles : List GridPos) (t : Nat)
    (agents : List TransportAgent) (o : HeavyObject) (choice : Nat)
    (hp : o.pos = o.dropoff_cell) :
    (HeavyObject.step w h obstacles t agents o choice).1.pos = o.pos ∧
    (HeavyObject.step w h obstacles t agents o choice).1.completed =
      o.completed ∧
    (HeavyObject.step w h obstacles t agents o choice).2 = agents := by
  have hvm : heavy_valid_moves w h obstacles o = [] := by
    unfold heavy_valid_moves
    rw [heavy_candidate_moves_at_dropoff o hp]
    rfl
  rcases heavy_step_cases w h obstacles t agents o choice with
    ⟨_, he⟩ | ⟨_, _, he⟩ | ⟨_, _, hne, _⟩
  · rw [he]; exact ⟨rfl, rfl, rfl⟩
  · rw [he]; simp
  · exact absurd hvm hne

/-- Every exit of the current-cell inspection `step_on_objects`, with the
branch conditions that led there. -/
lemma step_on_objects_cases (a : TransportAgent) (l : List HeavyObject) :
    (step_on_objects a l = (l, LatchResult.no_heavy) ∧
      ∀ o ∈ l, ¬(o.pos = a.pos ∧ o.completed = false)) ∨
    (∃ pre o post,
      l = pre ++ o :: post ∧ o.pos = a.pos ∧ o.completed = false ∧
      (∀ p ∈ pre, ¬(p.pos = a.pos ∧ p.completed = false)) ∧
      ((o.required_carriers ≤ o.current_carriers.card ∧
        step_on_objects a l =
          (pre ++ { o with discovered := true } :: post,
           LatchResult.full)) ∨
       (o.current_carriers.card < o.required_carriers ∧
        step_on_objects a l =
          (pre ++ { o with
            discovered := true,
            current_carriers := insert a.uid o.current_carriers } :: post,
           LatchResult.latched o.uid)))) := by
  induction l with
  | nil => exact Or.inl ⟨rfl, by simp⟩
  | cons o rest ih =>
    by_cases hm : o.pos = a.pos ∧ o.completed = false
    · right
      refine ⟨[], o, rest, by simp, hm.1, hm.2, by simp, ?_⟩
      by_cases hcard : o.current_carriers.card < o.required_carriers
      · right
        refine ⟨hcard, ?_⟩
        unfold step_on_objects
        simp only [if_pos hm, if_pos hcard, List.nil_append]
      · left
        refine ⟨Nat.le_of_not_lt hcard, ?_⟩
        unfold step_on_objects
        simp only [if_pos hm, if_neg hcard, List.nil_append]
    · have hstep : step_on_objects a (o :: rest) =
          (o :: (step_on_objects a rest).1, (step_on_objects a rest).2) := by
        conv_lhs => unfold step_on_objects
        simp only [if_neg hm]
      rcases ih with ⟨heq, hno⟩ | ⟨pre, ob, post, hl, hpos, hcomp, hpre, hres⟩
      · left
        constructor
        · rw [hstep, heq]
        · intro p hp
          rcases List.mem_cons.mp hp with rfl | hp'
          · exact hm
          · exact hno p hp'
      · right
        refine ⟨o :: pre, ob, post, by rw [hl]; rfl, hpos, hcomp, ?_, ?_⟩
        · intro p hp
          rcases List.mem_cons.mp hp with rfl | hp'
          · exact hm
          · exact hpre p hp'
        · rcases hres with ⟨hge, heq⟩ | ⟨hlt, heq⟩
          · left
            refine ⟨hge, ?_⟩
            rw [hstep, heq]
            rfl
          · right
            refine ⟨hlt, ?_⟩
            rw [hstep, heq]
            rfl

/-- When the agent stands on no uncompleted object, the inspection changes
nothing and reports `no_heavy`. -/
lemma step_on_objects_no_heavy (a : TransportAgent) (l : List HeavyObject)
    (hno : ∀ o ∈ l, o.pos = a.pos → o.completed = true) :
    step_on_objects a l = (l, LatchResult.no_heavy) := by
  rcases step_on_objects_cases a l with ⟨heq, _⟩ |
    ⟨pre, o, post, hl, hpos, hcomp, _, _⟩
  · exact heq
  · exfalso
    have ho : o ∈ l := by rw [hl]; simp
    rw [hno o ho hpos] at hcomp
    exact Bool.noConfusion hcomp

/-- Invariants preserved by every micro-step hold in every reachable
state. -/
lemma reachable_preserve {P : SimState → Prop}
    (hstep : ∀ s t, P s → MicroStep s t → P t) :
    ∀ s t, Reachable s t → P s → P t := by
  intro s t h hp
  induction h with
  | refl => exact hp
  | tail _ hstep1 ih => exact hstep _ _ ih hstep1

/-- Replacing a zipper element by one with the same projection keeps the
projected list unchanged. -/
lemma map_zipper_replace {α β : Type} (f : α → β) (pre post : List α)
    (x y : α) (hxy : f y = f x) :
    (pre ++ y :: post).map f = (pre ++ x :: post).map f := by
  simp only [List.map_append, List.map_cons, hxy]

/-- In a list whose projections are distinct, the zipper element's projection
differs from every other element's. -/
lemma zipper_proj_ne {α β : Type} (f : α → β) (pre post : List α) (x : α)
    (hnd : ((pre ++ x :: post).map f).Nodup) :
    ∀ y, (y ∈ pre ∨ y ∈ post) → f y ≠ f x := by
  intro y hy
  rw [List.map_append, List.map_cons] at hnd
  rcases List.nodup_append.mp hnd with ⟨hpre, hcons, hdisj⟩
  rcases hy with hy | hy
  · intro hfy
    exact hdisj (List.mem_map_of_mem f hy) (by rw [hfy]; simp)
  · rcases List.nodup_cons.mp hcons with ⟨hx, _⟩
    intro hfy
    exact hx (hfy ▸ List.mem_map_of_mem f hy)

/-- Members of a projection-distinct list with equal projections are equal. -/
lemma nodup_map_mem_inj {α β : Type} (f : α → β) (l : List α)
    (hnd : (l.map f).Nodup) :
    ∀ x ∈ l, ∀ y ∈ l, f x = f y → x = y := by
  intro x hx y hy hf
  exact List.inj_on_of_nodup_map hnd hx hy hf

@[simp] lemma heavyActivate_objects (s : SimState) (pre post : List HeavyObject)
    (o : HeavyObject) (choice : Nat) :
    (heavyActivate s pre post o choice).objects =
      pre ++ (HeavyObject.step s.width s.height s.obstacles s.step_count
        s.agents o choice).1 :: post := rfl

@[simp] lemma heavyActivate_agents (s : SimState) (pre post : List HeavyObject)
    (o : HeavyObject) (choice : Nat) :
    (heavyActivate s pre post o choice).agents =
      (HeavyObject.step s.width s.height s.obstacles s.step_count
        s.agents o choice).2 := rfl

@[simp] lemma transportActivate_objects (s : SimState)
    (pre post : List TransportAgent) (a : TransportAgent) (choice : Nat) :
    (transportActivate s pre post a choice).objects =
      (TransportAgent.step s.width s.height s.obstacles s.pheromone_deposit
        s.objects s.pheromone a choice).2.1 := rfl

@[simp] lemma transportActivate_agents (s : SimState)
    (pre post : List TransportAgent) (a : TransportAgent) (choice : Nat) :
    (transportActivate s pre post a choice).agents =
      pre ++ (TransportAgent.step s.width s.height s.obstacles
        s.pheromone_deposit s.objects s.pheromone a choice).1 :: post := rfl

@[simp] lemma tickEnd_objects (s : SimState) :
    (tickEnd s).objects = s.objects := by
  simp only [tickEnd]
  split <;> rfl

@[simp] lemma tickEnd_agents (s : SimState) :
    (tickEnd s).agents = s.agents := by
  simp only [tickEnd]
  split <;> rfl

/-- The objects list produced by a transporter activation: unchanged, or a
single object replaced, discovered and possibly joined (only when its stored
carrier set was strictly below the requirement). -/
lemma transport_step_objects (w h : Nat) (obstacles : List GridPos)
    (deposit : ℚ) (objects : List HeavyObject) (pher : GridPos → ℚ)
    (a : TransportAgent) (choice : Nat) :
    (TransportAgent.step w h obstacles deposit objects pher a choice).2.1 =
      objects ∨
    ∃ pre ob post, objects = pre ++ ob :: post ∧ ob.completed = false ∧
      ob.pos = a.pos ∧
      (((TransportAgent.step w h obstacles deposit objects pher a choice).2.1 =
          pre ++ { ob with discovered := true } :: post) ∨
       (ob.current_carriers.card < ob.required_carriers ∧
        (TransportAgent.step w h obstacles deposit objects pher a choice).2.1 =
          pre ++ { ob with
            discovered := true,
            current_carriers := insert a.uid ob.current_carriers } :: post)) := by
  by_cases hg : a.latching = true ∧ a.carrying_object_id ≠ none
  · left
    unfold TransportAgent.step
    simp only [if_pos hg]
  · rcases step_on_objects_cases a objects with ⟨heq, _⟩ |
      ⟨pre, ob, post, hl, hpos, hcomp, _, hres⟩
    · left
      unfold TransportAgent.step
      simp only [if_neg hg, heq]
    · right
      refine ⟨pre, ob, post, hl, hcomp, hpos, ?_⟩
      rcases hres with ⟨_, heq⟩ | ⟨hlt, heq⟩
      · left
        unfold TransportAgent.step
        simp only [if_neg hg, heq]
      · right
        refine ⟨hlt, ?_⟩
        unfold TransportAgent.step
        simp only [if_neg hg, heq]

/-- The stored carrier set's size stays within `required_carriers` across a
heavy-object step. -/
lemma heavy_step_card_bound (w h : Nat) (obstacles : List GridPos) (t : Nat)
    (agents : List TransportAgent) (o : HeavyObject) (choice : Nat)
    (hb : o.current_carriers.card ≤ o.required_carriers) :
    (HeavyObject.step w h obstacles t agents o choice).1.current_carriers.card ≤
      (HeavyObject.step w h obstacles t agents o choice).1.required_carriers := by
  rcases heavy_step_cases w h obstacles t agents o choice with
    ⟨_, he⟩ | ⟨_, _, he⟩ | ⟨_, _, _, hmv⟩
  · rw [he]; exact hb
  · rw [he]; simpa using hb
  · rcases hmv with ⟨_, he⟩ | ⟨_, he⟩ <;> rw [he] <;> simp [hb]

/-- Invariant: every stored carrier set stays within `required_carriers`. -/
def CarrierCardBound (s : SimState) : Prop :=
  ∀ o ∈ s.objects, o.current_carriers.card ≤ o.required_carriers

lemma carrierCardBound_step (s t : SimState) (hP : CarrierCardBound s)
    (hstep : MicroStep s t) : CarrierCardBound t := by
  cases hstep with
  | heavy pre post o choice hobj =>
    intro o' ho'
    rw [heavyActivate_objects] at ho'
    rcases List.mem_append.mp ho' with hp | hp
    · exact hP o' (hobj ▸ List.mem_append_left _ hp)
    · rcases List.mem_cons.mp hp with rfl | hp'
      · exact heavy_step_card_bound _ _ _ _ _ _ _
          (hP o (hobj ▸ List.mem_append_right _ (List.mem_cons_self o post)))
      · exact hP o' (hobj ▸ List.mem_append_right _ (List.mem_cons_of_mem o hp'))
  | transport pre post a choice hag =>
    intro o' ho'
    rw [transportActivate_objects] at ho'
    rcases transport_step_objects s.width s.height s.obstacles
        s.pheromone_deposit s.objects s.pheromone a choice with heq |
      ⟨preo, ob, posto, hl, _, _, hres⟩
    · rw [heq] at ho'
      exact hP o' ho'
    · have hob : ob ∈ s.objects := by rw [hl]; simp
      rcases hres with heq | ⟨hlt, heq⟩
      · rw [heq] at ho'
        rcases List.mem_append.mp ho' with hp | hp
        · exact hP o' (hl ▸ List.mem_append_left _ hp)
        · rcases List.mem_cons.mp hp with rfl | hp'
          · simpa using hP ob hob
          · exact hP o' (hl ▸ List.mem_append_right _ (List.mem_cons_of_mem ob hp'))
      · rw [heq] at ho'
        rcases List.mem_append.mp ho' with hp | hp
        · exact hP o' (hl ▸ List.mem_append_left _ hp)
        · rcases List.mem_cons.mp hp with rfl | hp'
          · simpa using Nat.le_trans (Finset.card_insert_le a.uid ob.current_carriers) hlt
          · exact hP o' (hl ▸ List.mem_append_right _ (List.mem_cons_of_mem ob hp'))
  | tick =>
    intro o' ho'
    rw [tickEnd_objects] at ho'
    exact hP o' ho'

/-- In every reachable state the stored carrier set stays within
`required_carriers`: each latch re-checks the stored count, so joins can never
push it past the threshold. -/
lemma carrierCardBound_of_reachable (s0 s : SimState) (hinit : InitOk s0)
    (hreach : Reachable s0 s) : CarrierCardBound s := by
  refine reachable_preserve carrierCardBound_step s0 s hreach ?_
  intro o ho
  rw [(hinit.2.2.1 o ho).1]
  simp

/-- A pointwise property of heavy objects preserved by the heavy step and by
the two transporter-side replacements holds in every object of every
micro-step successor. -/
lemma objects_pointwise_step (Q : HeavyObject → Prop)
    (hheavy : ∀ (w h : Nat) (obstacles : List GridPos) (t : Nat)
      (agents : List TransportAgent) (o : HeavyObject) (choice : Nat),
      Q o → Q (HeavyObject.step w h obstacles t agents o choice).1)
    (hdisc : ∀ o : HeavyObject, o.completed = false → Q o →
      Q { o with discovered := true })
    (hlatch : ∀ (o : HeavyObject) (u : Nat), o.completed = false →
      o.current_carriers.card < o.required_carriers → Q o →
      Q { o with
          discovered := true,
          current_carriers := insert u o.current_carriers })
    (s t : SimState) (hP : ∀ o ∈ s.objects, Q o) (hstep : MicroStep s t) :
    ∀ o ∈ t.objects, Q o := by
  cases hstep with
  | heavy pre post o choice hobj =>
    intro o' ho'
    rw [heavyActivate_objects] at ho'
    rcases List.mem_append.mp ho' with hp | hp
    · exact hP o' (hobj ▸ List.mem_append_left _ hp)
    · rcases List.mem_cons.mp hp with rfl | hp'
      · exact hheavy _ _ _ _ _ _ _
          (hP o (hobj ▸ List.mem_append_right _ (List.mem_cons_self o post)))
      · exact hP o' (hobj ▸ List.mem_append_right _ (List.mem_cons_of_mem o hp'))
  | transport pre post a choice hag =>
    intro o' ho'
    rw [transportActivate_objects] at ho'
    rcases transport_step_objects s.width s.height s.obstacles
        s.pheromone_deposit s.objects s.pheromone a choice with heq |
      ⟨preo, ob, posto, hl, hcomp, _, hres⟩
    · rw [heq] at ho'
      exact hP o' ho'
    · have hob : ob ∈ s.objects := by rw [hl]; simp
      rcases hres with heq | ⟨hlt, heq⟩
      · rw [heq] at ho'
        rcases List.mem_append.mp ho' with hp | hp
        · exact hP o' (hl ▸ List.mem_append_left _ hp)
        · rcases List.mem_cons.mp hp with rfl | hp'
          · exact hdisc ob hcomp (hP ob hob)
          · exact hP o' (hl ▸ List.mem_append_right _ (List.mem_cons_of_mem ob hp'))
      · rw [heq] at ho'
        rcases List.mem_append.mp ho' with hp | hp
        · exact hP o' (hl ▸ List.mem_append_left _ hp)
        · rcases List.mem_cons.mp hp with rfl | hp'
          · exact hlatch ob a.uid hcomp hlt (hP ob hob)
          · exact hP o' (hl ▸ List.mem_append_right _ (List.mem_cons_of_mem ob hp'))
  | tick =>
    intro o' ho'
    rw [tickEnd_objects] at ho'
    exact hP o' ho'

lemma update_max_eq (n : Nat) (o : HeavyObject) :
    (update_max n o).max_carriers_used = max o.max_carriers_used n := by
  unfold update_max
  split
  · exact (Nat.max_eq_right (Nat.le_of_lt (by assumption))).symm
  · exact (Nat.max_eq_left (Nat.le_of_not_lt (by assumption))).symm

/-- The step `HeavyObject.step` on the arrival tick: the object ends completed on the
dropoff cell, stamps its completion time, finalizes `max_carriers_used`
against the live-carrier count, empties `current_carriers`, and detaches and
relocates every live carrier. -/
lemma heavy_step_arrival (w h : Nat) (obstacles : List GridPos) (t : Nat)
    (agents : List TransportAgent) (o : HeavyObject) (choice : Nat)
    (hc : o.completed = false)
    (hge : o.required_carriers ≤ (live_carriers agents o).length)
    (hvm : heavy_valid_moves w h obstacles o ≠ [])
    (hd : (heavy_valid_moves w h obstacles o).getD
      (choice % (heavy_valid_moves w h obstacles o).length) (0, 0) =
      o.dropoff_cell) :
    (HeavyObject.step w h obstacles t agents o choice).1.completed = true ∧
    (HeavyObject.step w h obstacles t agents o choice).1.pos =
      o.dropoff_cell ∧
    (HeavyObject.step w h obstacles t agents o choice).1.completion_time =
      some t ∧
    (HeavyObject.step w h obstacles t agents o choice).1.max_carriers_used =
      max o.max_carriers_used (live_carriers agents o).length ∧
    (HeavyObject.step w h obstacles t agents o choice).1.current_carriers =
      ∅ ∧
    (HeavyObject.step w h obstacles t agents o choice).2 =
      move_carriers o.pos o.dropoff_cell o.current_carriers true agents ∧
    ∀ b ∈ live_carriers agents o,
      { b with
        pos := o.dropoff_cell, latching := false,
        carrying_object_id := none } ∈
        (HeavyObject.step w h obstacles t agents o choice).2 := by
  rcases heavy_step_cases w h obstacles t agents o choice with
    ⟨hcc, _⟩ | ⟨_, hbad, _⟩ | ⟨_, _, _, hmv⟩
  · rw [hc] at hcc
    exact Bool.noConfusion hcc
  · rcases hbad with hlt | hemp
    · exact absurd hge (Nat.not_le_of_lt hlt)
    · exact absurd hemp hvm
  · rcases hmv with ⟨hne, _⟩ | ⟨_, he⟩
    · exact absurd hd hne
    · rw [he]
      refine ⟨rfl, hd, rfl, ?_, rfl, by rw [hd], ?_⟩
      · show max (update_max (live_carriers agents o).length
            (stamp_discovery t o)).max_carriers_used
            (live_carriers agents o).length = _
        rw [update_max_eq, stamp_discovery_max, Nat.max_assoc, Nat.max_self]
      · intro b hb
        have hbag : b ∈ agents := List.mem_of_mem_filter hb
        have hbp : b.pos = o.pos ∧ b.uid ∈ o.current_carriers := by
          have := List.of_mem_filter hb
          exact of_decide_eq_true this
        rw [hd]
        unfold move_carriers
        have : ({ b with
            pos := o.dropoff_cell, latching := false,
            carrying_object_id := none } : TransportAgent) =
            (fun a => if a.pos = o.pos ∧ a.uid ∈ o.current_carriers then
              (if true then
                { a with
                  pos := o.dropoff_cell, latching := false,
                  carrying_object_id := none }
              else { a with pos := o.dropoff_cell })
            else a) b := by
          simp only [if_pos hbp, if_pos trivial]
        rw [this]
        exact List.mem_map_of_mem _ hbag

/-- Invariant: a completed object sits on its dropoff cell and used at least
`required_carriers` carriers. -/
def CompletedInv (s : SimState) : Prop :=
  ∀ o ∈ s.objects, o.completed = true →
    o.pos = o.dropoff_cell ∧ o.required_carriers ≤ o.max_carriers_used

lemma heavy_step_completedQ (w h : Nat) (obstacles : List GridPos) (t : Nat)
    (agents : List TransportAgent) (o : HeavyObject) (choice : Nat)
    (hQ : o.completed = true →
      o.pos = o.dropoff_cell ∧ o.required_carriers ≤ o.max_carriers_used) :
    (HeavyObject.step w h obstacles t agents o choice).1.completed = true →
    (HeavyObject.step w h obstacles t agents o choice).1.pos =
      (HeavyObject.step w h obstacles t agents o choice).1.dropoff_cell ∧
    (HeavyObject.step w h obstacles t agents o choice).1.required_carriers ≤
      (HeavyObject.step w h obstacles t agents o choice).1.max_carriers_used := by
  rcases heavy_step_cases w h obstacles t agents o choice with
    ⟨_, he⟩ | ⟨hc, _, he⟩ | ⟨hc, hge, _, hmv⟩
  · rw [he]; exact hQ
  · rw [he]
    intro hcont
    simp only [update_max_completed, stamp_discovery_completed] at hcont
    rw [hc] at hcont
    exact Bool.noConfusion hcont
  · rcases hmv with ⟨_, he⟩ | ⟨hd, he⟩
    · rw [he]
      intro hcont
      simp only [update_max_completed, stamp_discovery_completed] at hcont
      rw [hc] at hcont
      exact Bool.noConfusion hcont
    · rw [he]
      intro _
      constructor
      · show (heavy_valid_moves w h obstacles o).getD _ (0, 0) = _
        simp only [update_max_dropoff, stamp_discovery_dropoff]
        exact hd
      · simp only [update_max_required, stamp_discovery_required,
          update_max_eq, stamp_discovery_max]
        exact Nat.le_trans hge (Nat.le_max_right _ _)

lemma completedInv_step (s t : SimState) (hP : CompletedInv s)
    (hstep : MicroStep s t) : CompletedInv t := by
  refine objects_pointwise_step
    (fun o => o.completed = true →
      o.pos = o.dropoff_cell ∧ o.required_carriers ≤ o.max_carriers_used)
    ?_ ?_ ?_ s t hP hstep
  · intro w h obstacles t agents o choice hQ
    exact heavy_step_completedQ w h obstacles t agents o choice hQ
  · intro o hcomp _ hcont
    simp only at hcont
    rw [hcomp] at hcont
    exact Bool.noConfusion hcont
  · intro o u hcomp _ _ hcont
    simp only at hcont
    rw [hcomp] at hcont
    exact Bool.noConfusion hcont

/-- In every reachable state, every completed object is on its dropoff cell
with `required_carriers ≤ max_carriers_used`. -/
lemma completedInv_of_reachable (s0 s : SimState) (hinit : InitOk s0)
    (hreach : Reachable s0 s) : CompletedInv s := by
  refine reachable_preserve completedInv_step s0 s hreach ?_
  intro o ho hcomp
  rw [(hinit.2.2.1 o ho).2] at hcomp
  exact Bool.noConfusion hcomp

lemma transport_step_eq_guard (w h : Nat) (obstacles : List GridPos)
    (deposit : ℚ) (objects : List HeavyObject) (pher : GridPos → ℚ)
    (a : TransportAgent) (choice : Nat)
    (hg : a.latching = true ∧ a.carrying_object_id ≠ none) :
    TransportAgent.step w h obstacles deposit objects pher a choice =
      (a, objects, pher) := by
  unfold TransportAgent.step
  simp only [if_pos hg]

lemma transport_step_eq_no_heavy (w h : Nat) (obstacles : List GridPos)
    (deposit : ℚ) (objects : List HeavyObject) (pher : GridPos → ℚ)
    (a : TransportAgent) (choice : Nat)
    (hg : ¬(a.latching = true ∧ a.carrying_object_id ≠ none))
    (heq : step_on_objects a objects = (objects, LatchResult.no_heavy)) :
    TransportAgent.step w h obstacles deposit objects pher a choice =
      (move_by_pheromone_or_random w h obstacles
        (leave_pheromone deposit pher a).1
        (leave_pheromone deposit pher a).2 choice,
       objects, (leave_pheromone deposit pher a).1) := by
  unfold TransportAgent.step
  simp only [if_neg hg, heq]

lemma transport_step_eq_full (w h : Nat) (obstacles : List GridPos)
    (deposit : ℚ) (objects l2 : List HeavyObject) (pher : GridPos → ℚ)
    (a : TransportAgent) (choice : Nat)
    (hg : ¬(a.latching = true ∧ a.carrying_object_id ≠ none))
    (heq : step_on_objects a objects = (l2, LatchResult.full)) :
    TransportAgent.step w h obstacles deposit objects pher a choice =
      (a, l2, pher) := by
  unfold TransportAgent.step
  simp only [if_neg hg, heq]

lemma transport_step_eq_latched (w h : Nat) (obstacles : List GridPos)
    (deposit : ℚ) (objects l2 : List HeavyObject) (pher : GridPos → ℚ)
    (a : TransportAgent) (choice ouid : Nat)
    (hg : ¬(a.latching = true ∧ a.carrying_object_id ≠ none))
    (heq : step_on_objects a objects = (l2, LatchResult.latched ouid)) :
    TransportAgent.step w h obstacles deposit objects pher a choice =
      ({ a with latching := true, carrying_object_id := some ouid },
       l2, pher) := by
  unfold TransportAgent.step
  simp only [if_neg hg, heq]

lemma move_by_pheromone_fields (w h : Nat) (obstacles : List GridPos)
    (pher : GridPos → ℚ) (a : TransportAgent) (choice : Nat) :
    (move_by_pheromone_or_random w h obstacles pher a choice).uid = a.uid ∧
    (move_by_pheromone_or_random w h obstacles pher a choice).latching =
      a.latching ∧
    (move_by_pheromone_or_random w h obstacles pher a
      choice).carrying_object_id = a.carrying_object_id ∧
    (move_by_pheromone_or_random w h obstacles pher a choice).last_deposit =
      a.last_deposit := by
  unfold move_by_pheromone_or_random
  set acc := scan_neighbors obstacles pher (moore_neighborhood w h a.pos)
  by_cases h1 : 0 < acc.highest_pher ∧ acc.best_cells ≠ []
  · simp [if_pos h1]
  · by_cases h2 : acc.free_neighbors = []
    · simp [if_neg h1, if_pos h2]
    · simp [if_neg h1, if_neg h2]

lemma move_carriers_mem_moved (old_pos new_pos : GridPos) (cs : Finset Nat)
    (detach : Bool) (agents : List TransportAgent) (b : TransportAgent)
    (hb : b ∈ agents) (hpred : b.pos = old_pos ∧ b.uid ∈ cs) :
    (if detach then
      ({ b with
         pos := new_pos, latching := false,
         carrying_object_id := none } : TransportAgent)
    else { b with pos := new_pos }) ∈
      move_carriers old_pos new_pos cs detach agents := by
  unfold move_carriers
  have : (if detach then
      ({ b with
         pos := new_pos, latching := false,
         carrying_object_id := none } : TransportAgent)
    else { b with pos := new_pos }) =
      (fun a => if a.pos = old_pos ∧ a.uid ∈ cs then
        (if detach then
          { a with
            pos := new_pos, latching := false, carrying_object_id := none }
        else { a with pos := new_pos })
      else a) b := by
    simp only [if_pos hpred]
  rw [this]
  exact List.mem_map_of_mem _ hb

lemma move_carriers_mem_same (old_pos new_pos : GridPos) (cs : Finset Nat)
    (detach : Bool) (agents : List TransportAgent) (b : TransportAgent)
    (hb : b ∈ agents) (hpred : ¬(b.pos = old_pos ∧ b.uid ∈ cs)) :
    b ∈ move_carriers old_pos new_pos cs detach agents := by
  unfold move_carriers
  have : b = (fun a => if a.pos = old_pos ∧ a.uid ∈ cs then
      (if detach then
        { a with
          pos := new_pos, latching := false, carrying_object_id := none }
      else { a with pos := new_pos })
    else a) b := by
    simp only [if_neg hpred]
  rw [this]
  exact List.mem_map_of_mem _ hb

lemma move_carriers_map_uid (old_pos new_pos : GridPos) (cs : Finset Nat)
    (detach : Bool) (agents : List TransportAgent) :
    (move_carriers old_pos new_pos cs detach agents).map
      TransportAgent.uid = agents.map TransportAgent.uid := by
  unfold move_carriers
  rw [List.map_map]
  apply List.map_congr_left
  intro b _
  by_cases hpred : b.pos = old_pos ∧ b.uid ∈ cs
  · simp only [Function.comp_apply, if_pos hpred]
    cases detach <;> rfl
  · simp only [Function.comp_apply, if_neg hpred]

/-- The carrier-set/transporter correspondence: every stored carrier id
belongs to a transporter standing on the object's cell, latched, and carrying
that very object. -/
def CarrierLink (objects : List HeavyObject)
    (agents : List TransportAgent) : Prop :=
  ∀ o ∈ objects, ∀ u ∈ o.current_carriers,
    ∃ b ∈ agents, b.uid = u ∧ b.pos = o.pos ∧ b.latching = true ∧
      b.carrying_object_id = some o.uid

/-- The full structural invariant: distinct transporter ids, distinct object
ids, and the carrier-set correspondence. -/
def SimInv (s : SimState) : Prop :=
  (s.agents.map TransportAgent.uid).Nodup ∧
  (s.objects.map HeavyObject.uid).Nodup ∧
  CarrierLink s.objects s.agents

/-- A transporter carrying some other object is never in the zipper object's
stored carrier set (its carrier entry would force it to carry the zipper
object instead). -/
lemma other_witness_not_carrier (objects : List HeavyObject)
    (agents : List TransportAgent)
    (hndA : (agents.map TransportAgent.uid).Nodup)
    (hndO : (objects.map HeavyObject.uid).Nodup)
    (hlink : CarrierLink objects agents)
    (preO postO : List HeavyObject) (o : HeavyObject)
    (hobj : objects = preO ++ o :: postO)
    (o2 : HeavyObject) (ho2 : o2 ∈ preO ∨ o2 ∈ postO)
    (b : TransportAgent) (hb : b ∈ agents)
    (hbc : b.carrying_object_id = some o2.uid) :
    ¬(b.pos = o.pos ∧ b.uid ∈ o.current_carriers) := by
  rintro ⟨_, hmem⟩
  have ho : o ∈ objects := by rw [hobj]; simp
  obtain ⟨b2, hb2mem, hb2uid, _, _, hb2c⟩ := hlink o ho b.uid hmem
  have hb2b : b2 = b :=
    nodup_map_mem_inj _ _ hndA b2 hb2mem b hb (by rw [hb2uid])
  rw [hb2b, hbc] at hb2c
  have huid : o2.uid = o.uid := by injection hb2c
  exact zipper_proj_ne HeavyObject.uid preO postO o (hobj ▸ hndO) o2 ho2 huid

/-- A latched-and-carrying transporter no-ops, so any transporter that acts
and appears in some stored carrier set contradicts the carrier
correspondence. -/
lemma acting_agent_not_carrier (objects : List HeavyObject)
    (agents : List TransportAgent)
    (hndA : (agents.map TransportAgent.uid).Nodup)
    (hlink : CarrierLink objects agents) (a : TransportAgent)
    (ha : a ∈ agents)
    (hg : ¬(a.latching = true ∧ a.carrying_object_id ≠ none))
    (o : HeavyObject) (ho : o ∈ objects) :
    a.uid ∉ o.current_carriers := by
  intro hmem
  obtain ⟨b, hbmem, hbuid, _, hblat, hbc⟩ := hlink o ho a.uid hmem
  have hba : b = a := nodup_map_mem_inj _ _ hndA b hbmem a ha hbuid
  rw [hba] at hblat hbc
  exact hg ⟨hblat, by rw [hbc]; exact Option.noConfusion⟩

/-- Replacing one object by a version with the same id, position, and carrier
set preserves the carrier correspondence. -/
lemma carrierLink_replace (objects : List HeavyObject)
    (agents : List TransportAgent) (preO postO : List HeavyObject)
    (o o2 : HeavyObject) (hobj : objects = preO ++ o :: postO)
    (hlink : CarrierLink objects agents)
    (houid : o2.uid = o.uid) (hopos : o2.pos = o.pos)
    (hcar : o2.current_carriers = o.current_carriers) :
    CarrierLink (preO ++ o2 :: postO) agents := by
  intro o' ho' u hu
  rcases List.mem_append.mp ho' with hp | hp
  · exact hlink o' (hobj ▸ List.mem_append_left _ hp) u hu
  · rcases List.mem_cons.mp hp with rfl | hp'
    · rw [hcar] at hu
      obtain ⟨b, hbm, hbuid, hbpos, hblat, hbc⟩ :=
        hlink o (hobj ▸ List.mem_append_right _ (List.mem_cons_self o postO)) u hu
      exact ⟨b, hbm, hbuid, by rw [hopos]; exact hbpos, hblat,
        by rw [houid]; exact hbc⟩
    · exact hlink o' (hobj ▸ List.mem_append_right _
        (List.mem_cons_of_mem o hp')) u hu

/-- The heavy move: the object (id kept, position updated, carriers kept or
emptied) and every live carrier move together, every other carrier link is
untouched, so the correspondence survives. -/
lemma carrierLink_move (objects : List HeavyObject)
    (agents : List TransportAgent) (preO postO : List HeavyObject)
    (o ocomp : HeavyObject) (np : GridPos) (detach : Bool)
    (hobj : objects = preO ++ o :: postO)
    (hndA : (agents.map TransportAgent.uid).Nodup)
    (hndO : (objects.map HeavyObject.uid).Nodup)
    (hlink : CarrierLink objects agents)
    (houid : ocomp.uid = o.uid) (hopos : ocomp.pos = np)
    (hcar : (ocomp.current_carriers = o.current_carriers ∧ detach = false) ∨
      ocomp.current_carriers = ∅) :
    CarrierLink (preO ++ ocomp :: postO)
      (move_carriers o.pos np o.current_carriers detach agents) := by
  have hom : o ∈ objects := by rw [hobj]; simp
  intro o' ho' u hu
  rcases List.mem_append.mp ho' with hp | hp
  · -- an object left of the zipper: its carriers are not touched by the move
    have ho'm : o' ∈ objects := hobj ▸ List.mem_append_left _ hp
    obtain ⟨b, hbm, hbuid, hbpos, hblat, hbc⟩ := hlink o' ho'm u hu
    have hnp : ¬(b.pos = o.pos ∧ b.uid ∈ o.current_carriers) :=
      other_witness_not_carrier objects agents hndA hndO hlink preO postO o
        hobj o' (Or.inl hp) b hbm hbc
    exact ⟨b, move_carriers_mem_same _ _ _ _ _ b hbm hnp,
      hbuid, hbpos, hblat, hbc⟩
  · rcases List.mem_cons.mp hp with rfl | hp'
    · -- the moved object itself
      rcases hcar with ⟨hsame, hdet⟩ | hemp
      · rw [hsame] at hu
        obtain ⟨b, hbm, hbuid, hbpos, hblat, hbc⟩ := hlink o hom u hu
        have hpred : b.pos = o.pos ∧ b.uid ∈ o.current_carriers :=
          ⟨hbpos, by rw [hbuid]; exact hu⟩
        subst hdet
        have hmem := move_carriers_mem_moved o.pos np o.current_carriers
          false agents b hbm hpred
        simp only [Bool.false_eq_true, if_false] at hmem
        exact ⟨{ b with pos := np }, hmem, hbuid,
          by rw [hopos], hblat, by rw [houid]; exact hbc⟩
      · rw [hemp] at hu
        exact absurd hu (Finset.not_mem_empty u)
    · -- an object right of the zipper
      have ho'm : o' ∈ objects := hobj ▸ List.mem_append_right _
        (List.mem_cons_of_mem o hp')
      obtain ⟨b, hbm, hbuid, hbpos, hblat, hbc⟩ := hlink o' ho'm u hu
      have hnp : ¬(b.pos = o.pos ∧ b.uid ∈ o.current_carriers) :=
        other_witness_not_carrier objects agents hndA hndO hlink preO postO o
          hobj o' (Or.inr hp') b hbm hbc
      exact ⟨b, move_carriers_mem_same _ _ _ _ _ b hbm hnp,
        hbuid, hbpos, hblat, hbc⟩

/-- The structural invariant survives one heavy-object activation. -/
lemma simInv_heavy (s : SimState) (preO postO : List HeavyObject)
    (o : HeavyObject) (choice : Nat) (hobj : s.objects = preO ++ o :: postO)
    (hI : SimInv s) : SimInv (heavyActivate s preO postO o choice) := by
  obtain ⟨hndA, hndO, hlink⟩ := hI
  rcases heavy_step_cases s.width s.height s.obstacles s.step_count s.agents
    o choice with ⟨_, he⟩ | ⟨_, _, he⟩ | ⟨_, _, _, hmv⟩
  · -- completed: nothing changes
    have hr1 : (HeavyObject.step s.width s.height s.obstacles s.step_count
      s.agents o choice).1 = o := by rw [he]
    have hr2 : (HeavyObject.step s.width s.height s.obstacles s.step_count
      s.agents o choice).2 = s.agents := by rw [he]
    refine ⟨?_, ?_, ?_⟩
    · rw [heavyActivate_agents, hr2]; exact hndA
    · rw [heavyActivate_objects, hr1, ← hobj]; exact hndO
    · rw [heavyActivate_objects, heavyActivate_agents, hr1, hr2, ← hobj]
      exact hlink
  · -- waiting: only discovery time / running max change
    have hr1 : (HeavyObject.step s.width s.height s.obstacles s.step_count
        s.agents o choice).1 =
        update_max (live_carriers s.agents o).length
          (stamp_discovery s.step_count o) := by rw [he]
    have hr2 : (HeavyObject.step s.width s.height s.obstacles s.step_count
      s.agents o choice).2 = s.agents := by rw [he]
    refine ⟨?_, ?_, ?_⟩
    · rw [heavyActivate_agents, hr2]; exact hndA
    · rw [heavyActivate_objects, hr1]
      rw [map_zipper_replace HeavyObject.uid preO postO o _ (by simp)]
      rw [← hobj]; exact hndO
    · rw [heavyActivate_objects, heavyActivate_agents, hr1, hr2]
      exact carrierLink_replace s.objects s.agents preO postO o _ hobj hlink
        (by simp) (by simp) (by simp)
  · -- moving (arriving or not): object and live carriers move together
    rcases hmv with ⟨_, he⟩ | ⟨_, he⟩
    · have hr1 : (HeavyObject.step s.width s.height s.obstacles s.step_count
          s.agents o choice).1 =
          { update_max (live_carriers s.agents o).length
              (stamp_discovery s.step_count o) with
            pos := (heavy_valid_moves s.width s.height s.obstacles o).getD
              (choice % (heavy_valid_moves s.width s.height s.obstacles
                o).length) (0, 0) } := by rw [he]
      have hr2 : (HeavyObject.step s.width s.height s.obstacles s.step_count
          s.agents o choice).2 =
          move_carriers o.pos
            ((heavy_valid_moves s.width s.height s.obstacles o).getD
              (choice % (heavy_valid_moves s.width s.height s.obstacles
                o).length) (0, 0))
            o.current_carriers false s.agents := by rw [he]
      refine ⟨?_, ?_, ?_⟩
      · rw [heavyActivate_agents, hr2, move_carriers_map_uid]; exact hndA
      · rw [heavyActivate_objects, hr1]
        rw [map_zipper_replace HeavyObject.uid preO postO o _ (by simp)]
        rw [← hobj]; exact hndO
      · rw [heavyActivate_objects, heavyActivate_agents, hr1, hr2]
        exact carrierLink_move s.objects s.agents preO postO o _ _ false hobj
          hndA hndO hlink (by simp) (by simp) (Or.inl ⟨by simp, rfl⟩)
    · have hr1 : (HeavyObject.step s.width s.height s.obstacles s.step_count
          s.agents o choice).1 =
          { update_max (live_carriers s.agents o).length
              (stamp_discovery s.step_count o) with
            pos := (heavy_valid_moves s.width s.height s.obstacles o).getD
              (choice % (heavy_valid_moves s.width s.height s.obstacles
                o).length) (0, 0),
            completed := true, completion_time := some s.step_count,
            max_carriers_used :=
              max (update_max (live_carriers s.agents o).length
                (stamp_discovery s.step_count o)).max_carriers_used
                (live_carriers s.agents o).length,
            current_carriers := ∅ } := by rw [he]
      have hr2 : (HeavyObject.step s.width s.height s.obstacles s.step_count
          s.agents o choice).2 =
          move_carriers o.pos
            ((heavy_valid_moves s.width s.height s.obstacles o).getD
              (choice % (heavy_valid_moves s.width s.height s.obstacles
                o).length) (0, 0))
            o.current_carriers true s.agents := by rw [he]
      refine ⟨?_, ?_, ?_⟩
      · rw [heavyActivate_agents, hr2, move_carriers_map_uid]; exact hndA
      · rw [heavyActivate_objects, hr1]
        rw [map_zipper_replace HeavyObject.uid preO postO o _ (by simp)]
        rw [← hobj]; exact hndO
      · rw [heavyActivate_objects, heavyActivate_agents, hr1, hr2]
        exact carrierLink_move s.objects s.agents preO postO o _ _ true hobj
          hndA hndO hlink (by simp) (by simp) (Or.inr (by simp))

/-- Replacing the acting (non-latched) transporter by a version with the same
id, latching flag, and carried-object reference preserves the
correspondence: the actor backs no carrier entry. -/
lemma carrierLink_agent_replace (objects : List HeavyObject)
    (agents : List TransportAgent) (pre post : List TransportAgent)
    (a a2 : TransportAgent) (hag : agents = pre ++ a :: post)
    (hlink : CarrierLink objects agents)
    (hg : ¬(a.latching = true ∧ a.carrying_object_id ≠ none)) :
    CarrierLink objects (pre ++ a2 :: post) := by
  intro o ho u hu
  obtain ⟨b, hbm, hbuid, hbpos, hblat, hbc⟩ := hlink o ho u hu
  rw [hag] at hbm
  rcases List.mem_append.mp hbm with hp | hp
  · exact ⟨b, List.mem_append_left _ hp, hbuid, hbpos, hblat, hbc⟩
  · rcases List.mem_cons.mp hp with rfl | hp'
    · exact absurd ⟨hblat, by rw [hbc]; exact Option.noConfusion⟩ hg
    · exact ⟨b, List.mem_append_right _ (List.mem_cons_of_mem _ hp'),
        hbuid, hbpos, hblat, hbc⟩

/-- A latch: the actor joins the object's carrier set and simultaneously
records the latch on itself, so the correspondence extends to the new
entry. -/
lemma carrierLink_latch (objects : List HeavyObject)
    (agents : List TransportAgent) (pre post : List TransportAgent)
    (a : TransportAgent) (preO postO : List HeavyObject) (ob : HeavyObject)
    (hag : agents = pre ++ a :: post)
    (hobj : objects = preO ++ ob :: postO)
    (hlink : CarrierLink objects agents)
    (hg : ¬(a.latching = true ∧ a.carrying_object_id ≠ none))
    (hpos : ob.pos = a.pos) :
    CarrierLink
      (preO ++ { ob with
        discovered := true,
        current_carriers := insert a.uid ob.current_carriers } :: postO)
      (pre ++ { a with
        latching := true,
        carrying_object_id := some ob.uid } :: post) := by
  have hobm : ob ∈ objects := by rw [hobj]; simp
  have transfer : ∀ b : TransportAgent, b ∈ agents → b.latching = true →
      ∀ x, b.carrying_object_id = some x →
      b ∈ pre ++ ({ a with
        latching := true,
        carrying_object_id := some ob.uid } : TransportAgent) :: post := by
    intro b hbm hblat x hbc
    rw [hag] at hbm
    rcases List.mem_append.mp hbm with hp | hp
    · exact List.mem_append_left _ hp
    · rcases List.mem_cons.mp hp with rfl | hp'
      · exact absurd ⟨hblat, by rw [hbc]; exact Option.noConfusion⟩ hg
      · exact List.mem_append_right _ (List.mem_cons_of_mem _ hp')
  intro o' ho' u hu
  rcases List.mem_append.mp ho' with hp | hp
  · obtain ⟨b, hbm, hbuid, hbpos, hblat, hbc⟩ :=
      hlink o' (hobj ▸ List.mem_append_left _ hp) u hu
    exact ⟨b, transfer b hbm hblat _ hbc, hbuid, hbpos, hblat, hbc⟩
  · rcases List.mem_cons.mp hp with rfl | hp'
    · rcases Finset.mem_insert.mp hu with rfl | hu'
      · refine ⟨{ a with
          latching := true, carrying_object_id := some ob.uid },
          List.mem_append_right _ (List.mem_cons_self _ _),
          rfl, hpos.symm, rfl, rfl⟩
      · obtain ⟨b, hbm, hbuid, hbpos, hblat, hbc⟩ := hlink ob hobm u hu'
        exact ⟨b, transfer b hbm hblat _ hbc, hbuid, hbpos, hblat, hbc⟩
    · obtain ⟨b, hbm, hbuid, hbpos, hblat, hbc⟩ :=
        hlink o' (hobj ▸ List.mem_append_right _
          (List.mem_cons_of_mem ob hp')) u hu
      exact ⟨b, transfer b hbm hblat _ hbc, hbuid, hbpos, hblat, hbc⟩

/-- The structural invariant survives one transporter activation. -/
lemma simInv_transport (s : SimState) (pre post : List TransportAgent)
    (a : TransportAgent) (choice : Nat) (hag : s.agents = pre ++ a :: post)
    (hI : SimInv s) : SimInv (transportActivate s pre post a choice) := by
  obtain ⟨hndA, hndO, hlink⟩ := hI
  by_cases hg : a.latching = true ∧ a.carrying_object_id ≠ none
  · have he := transport_step_eq_guard s.width s.height s.obstacles
      s.pheromone_deposit s.objects s.pheromone a choice hg
    have hr1 : (TransportAgent.step s.width s.height s.obstacles
      s.pheromone_deposit s.objects s.pheromone a choice).1 = a := by rw [he]
    have hr2 : (TransportAgent.step s.width s.height s.obstacles
      s.pheromone_deposit s.objects s.pheromone a choice).2.1 = s.objects :=
      by rw [he]
    refine ⟨?_, ?_, ?_⟩
    · rw [transportActivate_agents, hr1, ← hag]; exact hndA
    · rw [transportActivate_objects, hr2]; exact hndO
    · rw [transportActivate_objects, transportActivate_agents, hr1, hr2,
        ← hag]
      exact hlink
  · rcases step_on_objects_cases a s.objects with ⟨heq, _⟩ |
      ⟨preO, ob, postO, hobj, hpos, _, _, hres⟩
    · -- search mode: deposit and move
      have he := transport_step_eq_no_heavy s.width s.height s.obstacles
        s.pheromone_deposit s.objects s.pheromone a choice hg heq
      have hr1 : (TransportAgent.step s.width s.height s.obstacles
          s.pheromone_deposit s.objects s.pheromone a choice).1 =
          move_by_pheromone_or_random s.width s.height s.obstacles
            (leave_pheromone s.pheromone_deposit s.pheromone a).1
            (leave_pheromone s.pheromone_deposit s.pheromone a).2 choice :=
        by rw [he]
      have hr2 : (TransportAgent.step s.width s.height s.obstacles
        s.pheromone_deposit s.objects s.pheromone a choice).2.1 =
        s.objects := by rw [he]
      obtain ⟨hu2, hl2, hc2, _⟩ := move_by_pheromone_fields s.width s.height
        s.obstacles (leave_pheromone s.pheromone_deposit s.pheromone a).1
        (leave_pheromone s.pheromone_deposit s.pheromone a).2 choice
      refine ⟨?_, ?_, ?_⟩
      · rw [transportActivate_agents, hr1]
        rw [map_zipper_replace TransportAgent.uid pre post a _ hu2]
        rw [← hag]; exact hndA
      · rw [transportActivate_objects, hr2]; exact hndO
      · rw [transportActivate_objects, transportActivate_agents, hr1, hr2]
        exact carrierLink_agent_replace s.objects s.agents pre post a _ hag
          hlink hg
    · rcases hres with ⟨_, heq⟩ | ⟨_, heq⟩
      · -- the object already has enough carriers: only discovery is marked
        have he := transport_step_eq_full s.width s.height s.obstacles
          s.pheromone_deposit s.objects _ s.pheromone a choice hg heq
        have hr1 : (TransportAgent.step s.width s.height s.obstacles
          s.pheromone_deposit s.objects s.pheromone a choice).1 = a :=
          by rw [he]
        have hr2 : (TransportAgent.step s.width s.height s.obstacles
            s.pheromone_deposit s.objects s.pheromone a choice).2.1 =
            preO ++ { ob with discovered := true } :: postO := by rw [he]
        refine ⟨?_, ?_, ?_⟩
        · rw [transportActivate_agents, hr1, ← hag]; exact hndA
        · rw [transportActivate_objects, hr2]
          rw [map_zipper_replace HeavyObject.uid preO postO ob
            { ob with discovered := true } rfl]
          rw [← hobj]; exact hndO
        · rw [transportActivate_objects, transportActivate_agents, hr1, hr2,
            ← hag]
          exact carrierLink_replace s.objects s.agents preO postO ob _ hobj
            hlink rfl rfl rfl
      · -- latch
        have he := transport_step_eq_latched s.width s.height s.obstacles
          s.pheromone_deposit s.objects _ s.pheromone a choice ob.uid hg heq
        have hr1 : (TransportAgent.step s.width s.height s.obstacles
            s.pheromone_deposit s.objects s.pheromone a choice).1 =
            { a with
              latching := true, carrying_object_id := some ob.uid } :=
          by rw [he]
        have hr2 : (TransportAgent.step s.width s.height s.obstacles
            s.pheromone_deposit s.objects s.pheromone a choice).2.1 =
            preO ++ { ob with
              discovered := true,
              current_carriers := insert a.uid ob.current_carriers } ::
              postO := by rw [he]
        refine ⟨?_, ?_, ?_⟩
        · rw [transportActivate_agents, hr1]
          rw [map_zipper_replace TransportAgent.uid pre post a
            { a with
              latching := true, carrying_object_id := some ob.uid } rfl]
          rw [← hag]; exact hndA
        · rw [transportActivate_objects, hr2]
          rw [map_zipper_replace HeavyObject.uid preO postO ob
            { ob with
              discovered := true,
              current_carriers := insert a.uid ob.current_carriers } rfl]
          rw [← hobj]; exact hndO
        · rw [transportActivate_objects, transportActivate_agents, hr1, hr2]
          exact carrierLink_latch s.objects s.agents pre post a preO postO ob
            hag hobj hlink hg hpos

/-- The structural invariant is preserved by every micro-step. -/
lemma simInv_step (s t : SimState) (hI : SimInv s) (hstep : MicroStep s t) :
    SimInv t := by
  cases hstep with
  | heavy pre post o choice hobj => exact simInv_heavy s pre post o choice hobj hI
  | transport pre post a choice hag =>
    exact simInv_transport s pre post a choice hag hI
  | tick =>
    obtain ⟨hndA, hndO, hlink⟩ := hI
    refine ⟨?_, ?_, ?_⟩
    · rw [tickEnd_agents]; exact hndA
    · rw [tickEnd_objects]; exact hndO
    · rw [tickEnd_objects, tickEnd_agents]; exact hlink

/-- The structural invariant holds in every reachable state. -/
lemma simInv_of_reachable (s0 s : SimState) (hinit : InitOk s0)
    (hreach : Reachable s0 s) : SimInv s := by
  refine reachable_preserve simInv_step s0 s hreach ?_
  refine ⟨hinit.1, hinit.2.1, ?_⟩
  intro o ho u hu
  rw [(hinit.2.2.1 o ho).1] at hu
  exact absurd hu (Finset.not_mem_empty u)

@[simp] lemma heavyActivate_num_objects (s : SimState)
    (pre post : List HeavyObject) (o : HeavyObject) (choice : Nat) :
    (heavyActivate s pre post o choice).num_objects = s.num_objects := rfl

@[simp] lemma heavyActivate_max_steps (s : SimState)
    (pre post : List HeavyObject) (o : HeavyObject) (choice : Nat) :
    (heavyActivate s pre post o choice).max_steps = s.max_steps := rfl

@[simp] lemma heavyActivate_step_count (s : SimState)
    (pre post : List HeavyObject) (o : HeavyObject) (choice : Nat) :
    (heavyActivate s pre post o choice).step_count = s.step_count := rfl

@[simp] lemma heavyActivate_running (s : SimState)
    (pre post : List HeavyObject) (o : HeavyObject) (choice : Nat) :
    (heavyActivate s pre post o choice).running = s.running := rfl

@[simp] lemma transportActivate_num_objects (s : SimState)
    (pre post : List TransportAgent) (a : TransportAgent) (choice : Nat) :
    (transportActivate s pre post a choice).num_objects = s.num_objects := rfl

@[simp] lemma transportActivate_max_steps (s : SimState)
    (pre post : List TransportAgent) (a : TransportAgent) (choice : Nat) :
    (transportActivate s pre post a choice).max_steps = s.max_steps := rfl

@[simp] lemma transportActivate_step_count (s : SimState)
    (pre post : List TransportAgent) (a : TransportAgent) (choice : Nat) :
    (transportActivate s pre post a choice).step_count = s.step_count := rfl

@[simp] lemma transportActivate_running (s : SimState)
    (pre post : List TransportAgent) (a : TransportAgent) (choice : Nat) :
    (transportActivate s pre post a choice).running = s.running := rfl

@[simp] lemma tickEnd_num_objects (s : SimState) :
    (tickEnd s).num_objects = s.num_objects := by
  simp only [tickEnd]
  split <;> rfl

@[simp] lemma tickEnd_max_steps (s : SimState) :
    (tickEnd s).max_steps = s.max_steps := by
  simp only [tickEnd]
  split <;> rfl

@[simp] lemma tickEnd_step_count (s : SimState) :
    (tickEnd s).step_count = s.step_count + 1 := by
  simp only [tickEnd]
  split <;> rfl

/-- The running flag after a tick: either carried over, or cleared because
the incremented counter reached `max_steps` or every object completed. -/
lemma tickEnd_running_cases (s : SimState) :
    (tickEnd s).running = s.running ∨
    ((tickEnd s).running = false ∧
      (s.max_steps ≤ s.step_count + 1 ∨
        count_completed_objects s = s.num_objects)) := by
  simp only [tickEnd]
  split
  · right
    exact ⟨rfl, by assumption⟩
  · left
    rfl

/-- Replacing the zipper element of the right list of a `Forall₂` by an
element related to the same partners. -/
lemma forall2_replace {α : Type} {R : α → α → Prop} :
    ∀ (l0 pre post : List α) (x y : α),
      List.Forall₂ R l0 (pre ++ x :: post) →
      (∀ a ∈ l0, R a x → R a y) →
      List.Forall₂ R l0 (pre ++ y :: post) := by
  intro l0 pre
  induction pre generalizing l0 with
  | nil =>
    intro post x y h hxy
    rcases List.forall₂_cons_right_iff.mp h with ⟨a, l', hR, hF, rfl⟩
    exact List.Forall₂.cons (hxy a (List.mem_cons_self a l') hR) hF
  | cons p pre ih =>
    intro post x y h hxy
    rw [List.cons_append] at h
    rcases List.forall₂_cons_right_iff.mp h with ⟨a, l', hR, hF, rfl⟩
    rw [List.cons_append]
    exact List.Forall₂.cons hR
      (ih l' post x y hF (fun b hb => hxy b (List.mem_cons_of_mem a hb)))

/-- Members of the right list of a `Forall₂` have related partners in the
left list. -/
lemma forall2_mem_right {α β : Type} {R : α → β → Prop} :
    ∀ (l : List α) (l' : List β), List.Forall₂ R l l' → ∀ b ∈ l',
      ∃ a ∈ l, R a b := by
  intro l l' h
  induction h with
  | nil => intro b hb; exact absurd hb (List.not_mem_nil b)
  | cons hR _ ih =>
    intro b hb
    rcases List.mem_cons.mp hb with rfl | hb'
    · exact ⟨_, List.mem_cons_self _ _, hR⟩
    · obtain ⟨a, ha, hab⟩ := ih b hb'
      exact ⟨a, List.mem_cons_of_mem _ ha, hab⟩

/-- A heavy object with too few live carriers only stamps bookkeeping: no
move, no completion, registry untouched. -/
lemma heavy_step_low (w h : Nat) (obstacles : List GridPos) (t : Nat)
    (agents : List TransportAgent) (o : HeavyObject) (choice : Nat)
    (hc : o.completed = false)
    (hlt : (live_carriers agents o).length < o.required_carriers) :
    (HeavyObject.step w h obstacles t agents o choice).1.pos = o.pos ∧
    (HeavyObject.step w h obstacles t agents o choice).1.completed = false ∧
    (HeavyObject.step w h obstacles t agents o choice).1.required_carriers =
      o.required_carriers ∧
    (HeavyObject.step w h obstacles t agents o choice).2 = agents := by
  rcases heavy_step_cases w h obstacles t agents o choice with
    ⟨hcc, _⟩ | ⟨_, _, he⟩ | ⟨_, hge, _, _⟩
  · rw [hc] at hcc
    exact Bool.noConfusion hcc
  · rw [he]
    simp [hc]
  · exact absurd hge (Nat.not_le_of_lt hlt)

/-- The per-run shape invariant of Scenario B (`required_carriers` exceeding
the transporter population): agent count, per-object position /
incompleteness / requirement, counters, and that the running flag can only
have been cleared by the tick counter. -/
def Understaffed (s0 s : SimState) : Prop :=
  s.agents.length = s0.agents.length ∧
  List.Forall₂ (fun o0 o => o.pos = o0.pos ∧ o.completed = false ∧
    o.required_carriers = o0.required_carriers) s0.objects s.objects ∧
  s.num_objects = s0.num_objects ∧
  s.max_steps = s0.max_steps ∧
  (s.running = false → s.max_steps ≤ s.step_count)

lemma understaffed_step (s0 : SimState)
    (hreq : ∀ o ∈ s0.objects, s0.agents.length < o.required_carriers)
    (hnum : s0.num_objects = s0.objects.length) (hne : s0.objects ≠ [])
    (s t : SimState) (hP : Understaffed s0 s) (hstep : MicroStep s t) :
    Understaffed s0 t := by
  obtain ⟨hlen, hF, hnums, hmax, hrun⟩ := hP
  cases hstep with
  | heavy pre post o choice hobj =>
    have hco : o.completed = false ∧
        ∀ a ∈ s0.objects, (o.pos = a.pos ∧ o.completed = false ∧
          o.required_carriers = a.required_carriers) →
          s.agents.length < o.required_carriers := by
      constructor
      · obtain ⟨a, _, _, hcf, _⟩ := forall2_mem_right s0.objects s.objects hF
          o (by rw [hobj]; simp)
        exact hcf
      · intro a ha ⟨_, _, hr⟩
        rw [hlen, hr]
        exact hreq a ha
    refine ⟨?_, ?_, by simpa using hnums, by simpa using hmax, ?_⟩
    · rw [heavyActivate_agents]
      obtain ⟨a0, ha0, hrel⟩ := forall2_mem_right s0.objects s.objects hF o
        (by rw [hobj]; simp)
      have hlow := heavy_step_low s.width s.height s.obstacles s.step_count
        s.agents o choice hco.1
        (Nat.lt_of_le_of_lt (List.length_filter_le _ s.agents)
          (hco.2 a0 ha0 hrel))
      rw [hlow.2.2.2]
      exact hlen
    · rw [heavyActivate_objects]
      rw [hobj] at hF
      refine forall2_replace s0.objects pre post o _ hF ?_
      intro a ha hrel
      have hlow := heavy_step_low s.width s.height s.obstacles s.step_count
        s.agents o choice hco.1
        (Nat.lt_of_le_of_lt (List.length_filter_le _ s.agents)
          (hco.2 a ha hrel))
      exact ⟨by rw [hlow.1]; exact hrel.1, hlow.2.1,
        by rw [hlow.2.2.1]; exact hrel.2.2⟩
    · intro hfalse
      rw [heavyActivate_running] at hfalse
      rw [heavyActivate_max_steps, heavyActivate_step_count]
      exact hrun hfalse
  | transport pre post a choice hag =>
    refine ⟨?_, ?_, by simpa using hnums, by simpa using hmax, ?_⟩
    · rw [transportActivate_agents]
      simp only [List.length_append, List.length_cons]
      rw [hag] at hlen
      simpa using hlen
    · rw [transportActivate_objects]
      rcases transport_step_objects s.width s.height s.obstacles
          s.pheromone_deposit s.objects s.pheromone a choice with heq |
        ⟨preo, ob, posto, hl, _, _, hres⟩
      · rw [heq]
        exact hF
      · rw [hl] at hF
        rcases hres with heq | ⟨_, heq⟩
        · rw [heq]
          refine forall2_replace s0.objects preo posto ob _ hF ?_
          intro b _ hrel
          exact ⟨hrel.1, hrel.2.1, hrel.2.2⟩
        · rw [heq]
          refine forall2_replace s0.objects preo posto ob _ hF ?_
          intro b _ hrel
          exact ⟨hrel.1, hrel.2.1, hrel.2.2⟩
    · intro hfalse
      rw [transportActivate_running] at hfalse
      rw [transportActivate_max_steps, transportActivate_step_count]
      exact hrun hfalse
  | tick =>
    have hobjeq : (tickEnd s).objects = s.objects := tickEnd_objects s
    refine ⟨by rw [tickEnd_agents]; exact hlen,
      by rw [hobjeq]; exact hF,
      by rw [tickEnd_num_objects]; exact hnums,
      by rw [tickEnd_max_steps]; exact hmax, ?_⟩
    intro hfalse
    rw [tickEnd_max_steps, tickEnd_step_count]
    rcases tickEnd_running_cases s with hsame | ⟨_, hcase⟩
    · rw [hsame] at hfalse
      exact Nat.le_succ_of_le (hrun hfalse)
    · rcases hcase with hle | hcount
      · exact hle
      · exfalso
        -- no object is completed, and there is at least one object
        have hzero : count_completed_objects s = 0 := by
          unfold count_completed_objects
          rw [List.length_eq_zero, List.filter_eq_nil_iff]
          intro o ho
          obtain ⟨_, _, _, hcf, _⟩ :=
            forall2_mem_right s0.objects s.objects hF o ho
          simp [hcf]
        rw [hzero] at hcount
        have hlens : s0.objects.length = s.objects.length :=
          List.Forall₂.length_eq hF
        rw [hnums, hnum] at hcount
        cases hs0 : s0.objects with
        | nil => exact hne hs0
        | cons x xs =>
          rw [hs0] at hcount
          simp at hcount

/-- Reachability form of the understaffed invariant. -/
lemma understaffed_of_reachable (s0 s : SimState) (hinit : InitOk s0)
    (hreq : ∀ o ∈ s0.objects, s0.agents.length < o.required_carriers)
    (hne : s0.objects ≠ []) (hreach : Reachable s0 s) :
    Understaffed s0 s := by
  refine reachable_preserve
    (understaffed_step s0 hreq hinit.2.2.2.2.1 hne) s0 s hreach ?_
  refine ⟨rfl, ?_, rfl, rfl, ?_⟩
  · rw [List.forall₂_same]
    intro o ho
    exact ⟨rfl, (hinit.2.2.1 o ho).2, rfl⟩
  · intro hfalse
    rw [hinit.2.2.2.2.2.1] at hfalse
    exact Bool.noConfusion hfalse

/-- The tracking invariant of the at-dropoff edge case: an object that
starts on its dropoff cell keeps its position, its dropoff cell and
`completed = false`. -/
def AtDropoffFrozen (s0 s : SimState) : Prop :=
  List.Forall₂ (fun o0 o =>
    (o0.pos = o0.dropoff_cell ∧ o0.completed = false) →
      (o.pos = o0.pos ∧ o.completed = false ∧
        o.dropoff_cell = o0.dropoff_cell)) s0.objects s.objects

lemma atDropoffFrozen_step (s0 s t : SimState) (hP : AtDropoffFrozen s0 s)
    (hstep : MicroStep s t) : AtDropoffFrozen s0 t := by
  cases hstep with
  | heavy pre post o choice hobj =>
    unfold AtDropoffFrozen at hP ⊢
    rw [heavyActivate_objects]
    rw [hobj] at hP
    refine forall2_replace s0.objects pre post o _ hP ?_
    intro a _ hrel hpre
    obtain ⟨hpos, hcomp, hdrop⟩ := hrel hpre
    have hp : o.pos = o.dropoff_cell := by
      rw [hpos, hdrop]
      exact hpre.1
    have hfix := heavy_step_at_dropoff s.width s.height s.obstacles
      s.step_count s.agents o choice hp
    have hconst := heavy_step_const s.width s.height s.obstacles
      s.step_count s.agents o choice
    refine ⟨by rw [hfix.1]; exact hpos, by rw [hfix.2.1]; exact hcomp,
      by rw [hconst.2.2]; exact hdrop⟩
  | transport pre post a choice hag =>
    unfold AtDropoffFrozen at hP ⊢
    rw [transportActivate_objects]
    rcases transport_step_objects s.width s.height s.obstacles
        s.pheromone_deposit s.objects s.pheromone a choice with heq |
      ⟨preo, ob, posto, hl, _, _, hres⟩
    · rw [heq]
      exact hP
    · rw [hl] at hP
      rcases hres with heq | ⟨_, heq⟩ <;> rw [heq] <;>
        refine forall2_replace s0.objects preo posto ob _ hP ?_ <;>
        intro b _ hrel hpre <;> obtain ⟨h1, h2, h3⟩ := hrel hpre <;>
        exact ⟨h1, h2, h3⟩
  | tick =>
    unfold AtDropoffFrozen at hP ⊢
    rw [tickEnd_objects]
    exact hP

/-- Reachability form: objects initialized on the dropoff cell stay there,
uncompleted, forever. -/
lemma atDropoffFrozen_of_reachable (s0 s : SimState)
    (hreach : Reachable s0 s) : AtDropoffFrozen s0 s := by
  refine reachable_preserve (atDropoffFrozen_step s0) s0 s hreach ?_
  unfold AtDropoffFrozen
  rw [List.forall₂_same]
  intro o _ hpre
  exact ⟨rfl, hpre.2, rfl⟩

/-- Under the carrier correspondence, the re-derived live carrier list
matches the stored carrier set exactly. -/
lemma live_eq_stored (objects : List HeavyObject)
    (agents : List TransportAgent)
    (hndA : (agents.map TransportAgent.uid).Nodup)
    (hlink : CarrierLink objects agents) (o : HeavyObject)
    (ho : o ∈ objects) :
    (live_carriers agents o).length = o.current_carriers.card ∧
    ∀ u, u ∈ (live_carriers agents o).map TransportAgent.uid ↔
      u ∈ o.current_carriers := by
  have hmem : ∀ u, u ∈ (live_carriers agents o).map TransportAgent.uid ↔
      u ∈ o.current_carriers := by
    intro u
    constructor
    · intro hu
      obtain ⟨b, hb, rfl⟩ := List.mem_map.mp hu
      have := List.of_mem_filter hb
      exact (of_decide_eq_true this).2
    · intro hu
      obtain ⟨b, hbm, hbuid, hbpos, _, _⟩ := hlink o ho u hu
      have hb : b ∈ live_carriers agents o := by
        unfold live_carriers
        refine List.mem_filter.mpr ⟨hbm, ?_⟩
        exact decide_eq_true ⟨hbpos, by rw [hbuid]; exact hu⟩
      rw [← hbuid]
      exact List.mem_map_of_mem TransportAgent.uid hb
  refine ⟨?_, hmem⟩
  have hsub : List.Sublist (live_carriers agents o) agents :=
    List.filter_sublist agents
  have hnd : ((live_carriers agents o).map TransportAgent.uid).Nodup :=
    (hsub.map TransportAgent.uid).nodup hndA
  have hlen : ((live_carriers agents o).map TransportAgent.uid).toFinset.card
      = (live_carriers agents o).length := by
    rw [List.toFinset_card_of_nodup hnd, List.length_map]
  rw [← hlen]
  congr 1
  ext u
  rw [List.mem_toFinset]
  exact hmem u

/-!
## The searching transporter (deposit, gradient following, random walk)
-/

/-- The obstacle-free cells of a neighbor list, in visit order. -/
def free_cells (obstacles : List GridPos) (ns : List GridPos) :
    List GridPos :=
  ns.filter (fun n => !(decide (n ∈ obstacles)))

/-- The maximum pheromone value over a cell list, starting from the loop's
`-1.0` initial value. -/
def top_pher (pher : GridPos → ℚ) (cells : List GridPos) : ℚ :=
  cells.foldl (fun m c => max m (pher c)) (-1)

lemma foldl_max_cases (pher : GridPos → ℚ) :
    ∀ (l : List GridPos) (init : ℚ),
      l.foldl (fun m c => max m (pher c)) init = init ∨
      ∃ c ∈ l, pher c = l.foldl (fun m c => max m (pher c)) init := by
  intro l
  induction l with
  | nil => intro init; exact Or.inl rfl
  | cons c l ih =>
    intro init
    rw [List.foldl_cons]
    rcases ih (max init (pher c)) with heq | ⟨c', hc', heq⟩
    · rw [heq]
      rcases max_choice init (pher c) with hm | hm
    
      · exact Or.inl hm
      · exact Or.inr ⟨c, List.mem_cons_self c l, hm.symm⟩
    · exact Or.inr ⟨c', List.mem_cons_of_mem c hc', heq⟩

lemma foldl_max_le (pher : GridPos → ℚ) :
    ∀ (l : List GridPos) (init : ℚ),
      init ≤ l.foldl (fun m c => max m (pher c)) init ∧
      ∀ c ∈ l, pher c ≤ l.foldl (fun m c => max m (pher c)) init := by
  intro l
  induction l with
  | nil =>
    intro init
    exact ⟨le_refl _, by intro c hc; exact absurd hc (List.not_mem_nil c)⟩
  | cons c l ih =>
    intro init
    rw [List.foldl_cons]
    obtain ⟨hinit, hall⟩ := ih (max init (pher c))
    refine ⟨le_trans (le_max_left _ _) hinit, ?_⟩
    intro c' hc'
    rcases List.mem_cons.mp hc' with rfl | hc''
    · exact le_trans (le_max_right init (pher c')) hinit
    · exact hall c' hc''

/-- The neighbor loop computes: the obstacle-free survivors in order, the
maximum pheromone value among them (from `-1.0`), and exactly the survivors
tied at that maximum. -/
lemma scan_neighbors_spec (obstacles : List GridPos) (pher : GridPos → ℚ)
    (ns : List GridPos) :
    (scan_neighbors obstacles pher ns).free_neighbors =
      free_cells obstacles ns ∧
    (scan_neighbors obstacles pher ns).highest_pher =
      top_pher pher (free_cells obstacles ns) ∧
    (scan_neighbors obstacles pher ns).best_cells =
      (free_cells obstacles ns).filter
        (fun c => decide (pher c =
          top_pher pher (free_cells obstacles ns))) := by
  suffices haux : ∀ (ns : List GridPos) (acc : ScanAcc),
      (∀ c ∈ acc.free_neighbors, pher c ≤ acc.highest_pher) →
      acc.best_cells = acc.free_neighbors.filter
        (fun c => decide (pher c = acc.highest_pher)) →
      (ns.foldl (scan_step obstacles pher) acc).free_neighbors =
        acc.free_neighbors ++ free_cells obstacles ns ∧
      (ns.foldl (scan_step obstacles pher) acc).highest_pher =
        (free_cells obstacles ns).foldl (fun m c => max m (pher c))
          acc.highest_pher ∧
      (∀ c ∈ (ns.foldl (scan_step obstacles pher) acc).free_neighbors,
        pher c ≤ (ns.foldl (scan_step obstacles pher) acc).highest_pher) ∧
      (ns.foldl (scan_step obstacles pher) acc).best_cells =
        (ns.foldl (scan_step obstacles pher) acc).free_neighbors.filter
          (fun c => decide (pher c =
            (ns.foldl (scan_step obstacles pher) acc).highest_pher)) by
    obtain ⟨h1, h2, _, h4⟩ := haux ns ⟨[], -1, []⟩
      (by intro c hc; exact absurd hc (List.not_mem_nil c)) rfl
    unfold scan_neighbors
    refine ⟨by rw [h1]; rfl, by rw [h2]; rfl, ?_⟩
    rw [h4, h1, h2]
    rfl
  intro ns
  induction ns with
  | nil =>
    intro acc hle hbest
    simp only [List.foldl_nil]
    refine ⟨?_, ?_, hle, hbest⟩
    · unfold free_cells
      simp
    · unfold free_cells
      simp
  | cons n ns ih =>
    intro acc hle hbest
    rw [List.foldl_cons]
    by_cases hmem : n ∈ obstacles
    · have hstep : scan_step obstacles pher acc n = acc := by
        unfold scan_step
        rw [if_pos hmem]
      have hfc : free_cells obstacles (n :: ns) = free_cells obstacles ns := by
        unfold free_cells
        simp [hmem]
      rw [hstep, hfc]
      exact ih acc hle hbest
    · have hfc : free_cells obstacles (n :: ns) =
          n :: free_cells obstacles ns := by
        unfold free_cells
        simp [hmem]
      have hacc : (scan_step obstacles pher acc n).free_neighbors =
            acc.free_neighbors ++ [n] ∧
          (scan_step obstacles pher acc n).highest_pher =
            max acc.highest_pher (pher n) ∧
          (∀ c ∈ (scan_step obstacles pher acc n).free_neighbors,
            pher c ≤ (scan_step obstacles pher acc n).highest_pher) ∧
          (scan_step obstacles pher acc n).best_cells =
            (scan_step obstacles pher acc n).free_neighbors.filter
              (fun c => decide (pher c =
                (scan_step obstacles pher acc n).highest_pher)) := by
        unfold scan_step
        rw [if_neg hmem]
        by_cases hlt : acc.highest_pher < pher n
        · simp only [if_pos hlt]
          have hmax : max acc.highest_pher (pher n) = pher n :=
            max_eq_right (le_of_lt hlt)
          refine ⟨trivial, hmax.symm, ?_, ?_⟩
          · intro c hc
            rcases List.mem_append.mp hc with hc' | hc'
            · exact le_of_lt (lt_of_le_of_lt (hle c hc') hlt)
            · rw [List.mem_singleton.mp hc']
          · rw [List.filter_append]
            have hnone : acc.free_neighbors.filter
                (fun c => decide (pher c = pher n)) = [] := by
              rw [List.filter_eq_nil_iff]
              intro c hc
              simp only [decide_eq_true_eq]
              exact ne_of_lt (lt_of_le_of_lt (hle c hc) hlt)
            rw [hnone]
            simp
        · by_cases heqv : pher n = acc.highest_pher
          · simp only [if_neg hlt, if_pos heqv]
            have hmax : max acc.highest_pher (pher n) = acc.highest_pher :=
              max_eq_left (le_of_eq heqv)
            refine ⟨trivial, hmax.symm, ?_, ?_⟩
            · intro c hc
              rcases List.mem_append.mp hc with hc' | hc'
              · exact hle c hc'
              · rw [List.mem_singleton.mp hc']
                exact le_of_eq heqv
            · rw [List.filter_append, ← hbest]
              simp [heqv]
          · simp only [if_neg hlt, if_neg heqv]
            have hmax : max acc.highest_pher (pher n) = acc.highest_pher :=
              max_eq_left (le_of_not_lt hlt)
            refine ⟨trivial, hmax.symm, ?_, ?_⟩
            · intro c hc
              rcases List.mem_append.mp hc with hc' | hc'
              · exact hle c hc'
              · rw [List.mem_singleton.mp hc']
                exact le_of_not_lt hlt
            · rw [List.filter_append, ← hbest]
              simp [heqv]
      obtain ⟨ha1, ha2, ha3, ha4⟩ := hacc
      obtain ⟨h1, h2, h3, h4⟩ := ih (scan_step obstacles pher acc n) ha3 ha4
      refine ⟨?_, ?_, h3, h4⟩
      · rw [h1, ha1, hfc]
        simp
      · rw [h2, ha2, hfc, List.foldl_cons]

lemma getD_choice_mem (l : List GridPos) (hne : l ≠ []) (k : Nat) :
    l.getD (k % l.length) (0, 0) ∈ l := by
  have hlt : k % l.length < l.length :=
    Nat.mod_lt _ (List.length_pos.mpr hne)
  rw [List.getD_eq_getElem l (0, 0) hlt]
  exact List.getElem_mem hlt

lemma exists_choice_getD (l : List GridPos) (c : GridPos) (hc : c ∈ l) :
    ∃ k, l.getD (k % l.length) (0, 0) = c := by
  obtain ⟨i, hi, hgi⟩ := List.mem_iff_getElem.mp hc
  refine ⟨i, ?_⟩
  rw [Nat.mod_eq_of_lt hi, List.getD_eq_getElem l (0, 0) hi]
  exact hgi

/-- The move `move_by_pheromone_or_random`, characterized against the obstacle-free
survivors of the Moore neighborhood: stay in place without survivors; with a
positive maximum pheromone value the target ranges exactly over the tied
cells; otherwise it ranges exactly over all survivors. -/
lemma move_by_pheromone_spec (w h : Nat) (obstacles : List GridPos)
    (pher : GridPos → ℚ) (a : TransportAgent) :
    (free_cells obstacles (moore_neighborhood w h a.pos) = [] →
      ∀ k, (move_by_pheromone_or_random w h obstacles pher a k).pos =
        a.pos) ∧
    (0 < top_pher pher (free_cells obstacles (moore_neighborhood w h a.pos)) →
      (∀ k, (move_by_pheromone_or_random w h obstacles pher a k).pos ∈
          free_cells obstacles (moore_neighborhood w h a.pos) ∧
        pher (move_by_pheromone_or_random w h obstacles pher a k).pos =
          top_pher pher (free_cells obstacles (moore_neighborhood w h a.pos)))
      ∧
      (∀ c ∈ free_cells obstacles (moore_neighborhood w h a.pos),
        pher c =
          top_pher pher (free_cells obstacles (moore_neighborhood w h a.pos))
        → ∃ k, (move_by_pheromone_or_random w h obstacles pher a k).pos = c))
    ∧
    (¬ 0 < top_pher pher (free_cells obstacles (moore_neighborhood w h a.pos))
      → free_cells obstacles (moore_neighborhood w h a.pos) ≠ [] →
      (∀ k, (move_by_pheromone_or_random w h obstacles pher a k).pos ∈
        free_cells obstacles (moore_neighborhood w h a.pos)) ∧
      (∀ c ∈ free_cells obstacles (moore_neighborhood w h a.pos),
        ∃ k, (move_by_pheromone_or_random w h obstacles pher a k).pos = c)) := by
  obtain ⟨hsf, hsh, hsb⟩ :=
    scan_neighbors_spec obstacles pher (moore_neighborhood w h a.pos)
  refine ⟨?_, ?_, ?_⟩
  · intro hemp k
    have hcond : ¬(0 < (scan_neighbors obstacles pher
        (moore_neighborhood w h a.pos)).highest_pher ∧
        (scan_neighbors obstacles pher
          (moore_neighborhood w h a.pos)).best_cells ≠ []) := by
      rintro ⟨_, hbne⟩
      rw [hsb, hemp] at hbne
      exact hbne rfl
    have hfree : (scan_neighbors obstacles pher
        (moore_neighborhood w h a.pos)).free_neighbors = [] := by
      rw [hsf]; exact hemp
    unfold move_by_pheromone_or_random
    rw [if_neg hcond, if_pos hfree]
  · intro hpos
    have hne : (scan_neighbors obstacles pher
        (moore_neighborhood w h a.pos)).best_cells ≠ [] := by
      rcases foldl_max_cases pher
          (free_cells obstacles (moore_neighborhood w h a.pos)) (-1) with
        heq | ⟨c, hc, heq⟩
      · exfalso
        unfold top_pher at hpos
        rw [heq] at hpos
        norm_num at hpos
      · have hcmem : c ∈ (free_cells obstacles
            (moore_neighborhood w h a.pos)).filter
            (fun c => decide (pher c = top_pher pher
              (free_cells obstacles (moore_neighborhood w h a.pos)))) := by
          refine List.mem_filter.mpr ⟨hc, ?_⟩
          exact decide_eq_true heq
        rw [hsb]
        exact List.ne_nil_of_mem hcmem
    have hcond : 0 < (scan_neighbors obstacles pher
        (moore_neighborhood w h a.pos)).highest_pher ∧
        (scan_neighbors obstacles pher
          (moore_neighborhood w h a.pos)).best_cells ≠ [] := by
      rw [hsh]
      exact ⟨hpos, hne⟩
    constructor
    · intro k
      have hmove : (move_by_pheromone_or_random w h obstacles pher a k).pos =
          (scan_neighbors obstacles pher
            (moore_neighborhood w h a.pos)).best_cells.getD
            (k % (scan_neighbors obstacles pher
              (moore_neighborhood w h a.pos)).best_cells.length) (0, 0) := by
        unfold move_by_pheromone_or_random
        rw [if_pos hcond]
      have hmem := getD_choice_mem _ hcond.2 k
      rw [← hmove] at hmem
      rw [hsb] at hmem
      obtain ⟨hmem1, hmem2⟩ := List.mem_filter.mp hmem
      exact ⟨hmem1, by rw [← hsh]; rw [hsh]; exact of_decide_eq_true hmem2⟩
    · intro c hc htied
      have hcmem : c ∈ (scan_neighbors obstacles pher
          (moore_neighborhood w h a.pos)).best_cells := by
        rw [hsb]
        exact List.mem_filter.mpr ⟨hc, decide_eq_true htied⟩
      obtain ⟨k, hk⟩ := exists_choice_getD _ c hcmem
      refine ⟨k, ?_⟩
      have hmove : (move_by_pheromone_or_random w h obstacles pher a k).pos =
          (scan_neighbors obstacles pher
            (moore_neighborhood w h a.pos)).best_cells.getD
            (k % (scan_neighbors obstacles pher
              (moore_neighborhood w h a.pos)).best_cells.length) (0, 0) := by
        unfold move_by_pheromone_or_random
        rw [if_pos hcond]
      rw [hmove, hk]
  · intro hneg hnotemp
    have hcond : ¬(0 < (scan_neighbors obstacles pher
        (moore_neighborhood w h a.pos)).highest_pher ∧
        (scan_neighbors obstacles pher
          (moore_neighborhood w h a.pos)).best_cells ≠ []) := by
      rintro ⟨hp, _⟩
      rw [hsh] at hp
      exact hneg hp
    have hfree : ¬(scan_neighbors obstacles pher
        (moore_neighborhood w h a.pos)).free_neighbors = [] := by
      rw [hsf]
      exact hnotemp
    constructor
    · intro k
      have hmove : (move_by_pheromone_or_random w h obstacles pher a k).pos =
          (scan_neighbors obstacles pher
            (moore_neighborhood w h a.pos)).free_neighbors.getD
            (k % (scan_neighbors obstacles pher
              (moore_neighborhood w h a.pos)).free_neighbors.length)
            (0, 0) := by
        unfold move_by_pheromone_or_random
        rw [if_neg hcond, if_neg hfree]
      have hmem := getD_choice_mem _ hfree k
      rw [← hmove, hsf] at hmem
      exact hmem
    · intro c hc
      have hcmem : c ∈ (scan_neighbors obstacles pher
          (moore_neighborhood w h a.pos)).free_neighbors := by
        rw [hsf]
        exact hc
      obtain ⟨k, hk⟩ := exists_choice_getD _ c hcmem
      refine ⟨k, ?_⟩
      have hmove : (move_by_pheromone_or_random w h obstacles pher a k).pos =
          (scan_neighbors obstacles pher
            (moore_neighborhood w h a.pos)).free_neighbors.getD
            (k % (scan_neighbors obstacles pher
              (moore_neighborhood w h a.pos)).free_neighbors.length)
            (0, 0) := by
        unfold move_by_pheromone_or_random
        rw [if_neg hcond, if_neg hfree]
      rw [hmove, hk]

/-!
## Evaporation and construction lemmas
-/

lemma tickEnd_pheromone (s : SimState) :
    (tickEnd s).pheromone = evaporate s.pheromone_decay s.pheromone := by
  simp only [tickEnd]
  split <;> rfl

lemma evapCell_le (d v : ℚ) (hd0 : 0 ≤ d) (hd1 : d ≤ 1) (hv : 0 ≤ v) :
    evapCell d v ≤ v := by
  unfold evapCell
  split
  · exact hv
  · exact mul_le_of_le_one_right hv (by linarith)

lemma evapCell_nonneg (d v : ℚ) (hd0 : 0 ≤ d) (hd1 : d ≤ 1) (hv : 0 ≤ v) :
    0 ≤ evapCell d v := by
  unfold evapCell
  split
  · exact le_refl 0
  · exact mul_nonneg hv (by linarith)

lemma evapCell_snap (d v : ℚ) (hd0 : 0 ≤ d) (hd1 : d ≤ 1) (hv : 0 ≤ v)
    (hsmall : v < 1 / 1000000) : evapCell d v = 0 := by
  unfold evapCell
  rw [if_pos]
  exact lt_of_le_of_lt (mul_le_of_le_one_right hv (by linarith)) hsmall

lemma evapCell_iter_nonneg (d v : ℚ) (hd0 : 0 ≤ d) (hd1 : d ≤ 1)
    (hv : 0 ≤ v) : ∀ n, 0 ≤ (evapCell d)^[n] v := by
  intro n
  induction n with
  | zero => exact hv
  | succ n ih =>
    rw [Function.iterate_succ_apply']
    exact evapCell_nonneg d _ hd0 hd1 ih

lemma evapCell_iter_mono (d v : ℚ) (hd0 : 0 ≤ d) (hd1 : d ≤ 1) (hv : 0 ≤ v)
    (n : Nat) : (evapCell d)^[n + 1] v ≤ (evapCell d)^[n] v := by
  rw [Function.iterate_succ_apply']
  exact evapCell_le d _ hd0 hd1 (evapCell_iter_nonneg d v hd0 hd1 hv n)

lemma exceptOk_map {α β : Type} (f : α → β) (e : Except String α) :
    exceptOk (e.map f) = exceptOk e := by
  cases e <;> rfl

lemma sampleInt_err {α : Type} (dflt : α) (l : List α) (k : Int) (g : Nat)
    (hb : k < 0 ∨ (l.length : Int) < k) :
    sampleInt dflt l k g =
      Except.error "Sample larger than population or is negative" := by
  unfold sampleInt
  rw [if_pos hb]

lemma allPositions_length (w h : Nat) :
    (allPositions w h).length = w * h := by
  unfold allPositions
  rw [List.length_flatMap]
  have hmap : List.map (List.length ∘ fun x =>
      (List.range h).map (fun y => (Int.ofNat x, Int.ofNat y)))
      (List.range w) = List.map (fun _ => h) (List.range w) := by
    apply List.map_congr_left
    intro x _
    simp
  rw [hmap]
  simp [List.map_const']

lemma exceptOk_bind_err {α β : Type} (s : String)
    (f : α → Except String β) :
    exceptOk ((Except.error s : Except String α).bind f) = false := rfl

lemma exceptOk_bind_ok {α β : Type} (x : α) (f : α → Except String β) :
    exceptOk ((Except.ok x : Except String α).bind f) = exceptOk (f x) := rfl

/-- Construction fails when the computed obstacle count is negative or
exceeds the number of grid cells. -/
lemma initModel_err_obstacles (cfg : Config) (seed : Nat)
    (hb : obstacleCount cfg.width cfg.height cfg.obstacle_fraction < 0 ∨
      ((cfg.width * cfg.height : Nat) : Int) <
        obstacleCount cfg.width cfg.height cfg.obstacle_fraction) :
    exceptOk (initModel cfg seed) = false := by
  unfold initModel
  rw [exceptOk_map]
  unfold placeAll
  rw [sampleInt_err _ _ _ _ (by rwa [allPositions_length])]
  exact exceptOk_bind_err _ _

/-- Construction fails when more objects are requested than grid cells
exist (a fortiori, than empty cells exist). -/
lemma initModel_err_objects (cfg : Config) (seed : Nat)
    (hk : cfg.width * cfg.height < cfg.initial_objects) :
    exceptOk (initModel cfg seed) = false := by
  unfold initModel
  rw [exceptOk_map]
  unfold placeAll
  cases h1 : sampleInt ((0 : Int), (0 : Int))
      (allPositions cfg.width cfg.height)
      (obstacleCount cfg.width cfg.height cfg.obstacle_fraction) seed with
  | error e => rfl
  | ok pr =>
    rw [exceptOk_bind_ok]
    have hlen : ((emptyAfter (allPositions cfg.width cfg.height)
        pr.1).length : Int) < (cfg.initial_objects : Int) := by
      have h2 : (emptyAfter (allPositions cfg.width cfg.height)
          pr.1).length < cfg.initial_objects :=
        Nat.lt_of_le_of_lt (Nat.le_trans (List.length_filter_le _ _)
          (le_of_eq (allPositions_length cfg.width cfg.height))) hk
      exact_mod_cast h2
    rw [sampleInt_err _ _ _ _ (Or.inr hlen)]
    exact exceptOk_bind_err _ _

/-- Construction fails when more transporters are requested than grid cells
exist. -/
lemma initModel_err_agents (cfg : Config) (seed : Nat)
    (hk : cfg.width * cfg.height < cfg.initial_agents) :
    exceptOk (initModel cfg seed) = false := by
  unfold initModel
  rw [exceptOk_map]
  unfold placeAll
  cases h1 : sampleInt ((0 : Int), (0 : Int))
      (allPositions cfg.width cfg.height)
      (obstacleCount cfg.width cfg.height cfg.obstacle_fraction) seed with
  | error e => rfl
  | ok pr =>
    rw [exceptOk_bind_ok]
    cases h2 : sampleInt ((0 : Int), (0 : Int))
        (emptyAfter (allPositions cfg.width cfg.height) pr.1)
        (cfg.initial_objects : Int) pr.2 with
    | error e => rfl
    | ok pr2 =>
      rw [exceptOk_bind_ok]
      have hlen : ((emptyAfter (emptyAfter
          (allPositions cfg.width cfg.height) pr.1) pr2.1).length : Int) <
          (cfg.initial_agents : Int) := by
        have h2 : (emptyAfter (emptyAfter
            (allPositions cfg.width cfg.height) pr.1) pr2.1).length <
            cfg.initial_agents :=
          Nat.lt_of_le_of_lt (Nat.le_trans (List.length_filter_le _ _)
            (Nat.le_trans (List.length_filter_le _ _)
              (le_of_eq (allPositions_length cfg.width cfg.height)))) hk
        exact_mod_cast h2
      rw [sampleInt_err _ _ _ _ (Or.inr hlen)]
      exact exceptOk_bind_err _ _

/-- Whether construction succeeds depends only on the grid size, the obstacle
fraction, and the requested counts: the remaining configuration values are
not validated at all. -/
lemma initModel_ok_ignores_values (cfg cfg2 : Config) (seed : Nat)
    (hw : cfg.width = cfg2.width) (hh : cfg.height = cfg2.height)
    (hag : cfg.initial_agents = cfg2.initial_agents)
    (hob : cfg.initial_objects = cfg2.initial_objects)
    (hfr : cfg.obstacle_fraction = cfg2.obstacle_fraction) :
    exceptOk (initModel cfg seed) = exceptOk (initModel cfg2 seed) := by
  unfold initModel
  rw [exceptOk_map, exceptOk_map, hw, hh, hag, hob, hfr]

/-- Either the size check of `random.sample` fails and it raises, or it
passes and the sample is returned. -/
lemma sampleInt_cases {α : Type} (dflt : α) (l : List α) (k : Int) (g : Nat) :
    ((k < 0 ∨ (l.length : Int) < k) ∧
      sampleInt dflt l k g =
        Except.error "Sample larger than population or is negative") ∨
    (¬(k < 0 ∨ (l.length : Int) < k) ∧
      sampleInt dflt l k g = Except.ok (sampleAux dflt k.toNat l g)) := by
  unfold sampleInt
  by_cases hc : k < 0 ∨ (l.length : Int) < k
  · exact Or.inl ⟨hc, by rw [if_pos hc]⟩
  · exact Or.inr ⟨hc, by rw [if_neg hc]⟩

/-- Exact characterization of construction failure: `initModel` fails if and
only if some placement phase requests more cells than are available to it —
the obstacle count is negative or exceeds the grid cells, or more objects
are requested than the cells left empty by the sampled obstacles, or more
transporters are requested than the cells left empty by the sampled
obstacles and objects. -/
lemma initModel_fail_iff (cfg : Config) (seed : Nat) :
    exceptOk (initModel cfg seed) = false ↔
    (obstacleCount cfg.width cfg.height cfg.obstacle_fraction < 0 ∨
      ((cfg.width * cfg.height : Nat) : Int) <
        obstacleCount cfg.width cfg.height cfg.obstacle_fraction) ∨
    (∃ (obsPos : List GridPos) (g1 : Nat),
      sampleInt ((0 : Int), (0 : Int)) (allPositions cfg.width cfg.height)
        (obstacleCount cfg.width cfg.height cfg.obstacle_fraction) seed =
        Except.ok (obsPos, g1) ∧
      (emptyAfter (allPositions cfg.width cfg.height) obsPos).length <
        cfg.initial_objects) ∨
    (∃ (obsPos : List GridPos) (g1 : Nat) (objPos : List GridPos)
        (g2 : Nat),
      sampleInt ((0 : Int), (0 : Int)) (allPositions cfg.width cfg.height)
        (obstacleCount cfg.width cfg.height cfg.obstacle_fraction) seed =
        Except.ok (obsPos, g1) ∧
      sampleInt ((0 : Int), (0 : Int))
        (emptyAfter (allPositions cfg.width cfg.height) obsPos)
        (cfg.initial_objects : Int) g1 = Except.ok (objPos, g2) ∧
      (emptyAfter (emptyAfter (allPositions cfg.width cfg.height) obsPos)
        objPos).length < cfg.initial_agents) := by
  unfold initModel
  rw [exceptOk_map]
  unfold placeAll
  rcases sampleInt_cases ((0 : Int), (0 : Int))
      (allPositions cfg.width cfg.height)
      (obstacleCount cfg.width cfg.height cfg.obstacle_fraction) seed with
    ⟨hc1, he1⟩ | ⟨hc1, he1⟩
  · rw [he1]
    exact iff_of_true rfl (Or.inl (by rwa [allPositions_length] at hc1))
  · rw [he1]
    simp only [exceptOk_bind_ok]
    generalize sampleAux ((0 : Int), (0 : Int))
      (obstacleCount cfg.width cfg.height cfg.obstacle_fraction).toNat
      (allPositions cfg.width cfg.height) seed = prA
    rcases sampleInt_cases ((0 : Int), (0 : Int))
        (emptyAfter (allPositions cfg.width cfg.height) prA.1)
        (cfg.initial_objects : Int) prA.2 with ⟨hc2, he2⟩ | ⟨hc2, he2⟩
    · rw [he2]
      refine iff_of_true rfl (Or.inr (Or.inl ⟨prA.1, prA.2, ?_, ?_⟩))
      · rfl
      · rcases hc2 with h | h
        · omega
        · exact_mod_cast h
    · rw [he2]
      simp only [exceptOk_bind_ok]
      generalize hB : sampleAux ((0 : Int), (0 : Int))
        (cfg.initial_objects : Int).toNat
        (emptyAfter (allPositions cfg.width cfg.height) prA.1) prA.2 = prB
      rcases sampleInt_cases ((0 : Int), (0 : Int))
          (emptyAfter (emptyAfter (allPositions cfg.width cfg.height) prA.1)
            prB.1)
          (cfg.initial_agents : Int) prB.2 with ⟨hc3, he3⟩ | ⟨hc3, he3⟩
      · rw [he3]
        refine iff_of_true rfl
          (Or.inr (Or.inr ⟨prA.1, prA.2, prB.1, prB.2, ?_, ?_, ?_⟩))
        · rfl
        · rw [he2, hB]
        · rcases hc3 with h | h
          · omega
          · exact_mod_cast h
      · rw [he3]
        simp only [exceptOk_bind_ok]
        refine iff_of_false (by simp [exceptOk]) ?_
        rintro (hbad | ⟨o1, g1x, heq, hlt⟩ |
          ⟨o1, g1x, o2, g2x, heqa, heqb, hlt⟩)
        · rw [allPositions_length] at hc1
          exact hc1 hbad
        · injection heq with h
          have h1 : prA.1 = o1 := by rw [h]
          apply hc2
          right
          rw [h1]
          exact_mod_cast hlt
        · injection heqa with h
          have h1 : prA.1 = o1 := by rw [h]
          have h2 : prA.2 = g1x := by rw [h]
          rw [← h1, ← h2] at heqb
          rw [he2, hB] at heqb
          injection heqb with h3
          have h4 : prB.1 = o2 := by rw [h3]
          apply hc3
          right
          rw [h1, h4]
          exact_mod_cast hlt

/-!
## Concrete instances used by the witnesses
-/

/-- A fresh heavy object needing two carriers, away from its dropoff. -/
def objInit : HeavyObject :=
  { uid := 1, pos := (1, 1), required_carriers := 2, current_carriers := ∅,
    discovered := false, completed := false, discovery_time := none,
    completion_time := none, max_carriers_used := 0, dropoff_cell := (0, 0) }

/-- A fresh transporter. -/
def agInit : TransportAgent :=
  { uid := 2, pos := (0, 0), latching := false, carrying_object_id := none,
    last_deposit := 0 }

/-- A small freshly constructed state: 2x2 grid, one object, one
transporter. -/
def sInit : SimState :=
  { width := 2, height := 2, obstacles := [], objects := [objInit],
    agents := [agInit], pheromone := fun _ => 0, pheromone_decay := 1 / 100,
    pheromone_deposit := 1, num_objects := 1, max_steps := 5,
    step_count := 0, running := true }

/-- The same state with the object initialized on its dropoff cell. -/
def sDrop : SimState :=
  { sInit with objects := [{ objInit with pos := (0, 0) }] }

/-- A configuration whose values are out of range in four ways
(`required_carriers = 0`, `pheromone_decay ≥ 1`, `max_steps = 0`,
`pheromone_deposit ≤ 0`) yet has plenty of empty cells. -/
def cfgBad : Config :=
  { width := 2, height := 2, initial_agents := 1, initial_objects := 1,
    obstacle_fraction := 0, pheromone_decay := 3 / 2,
    pheromone_deposit := -1, required_carriers := 0, max_steps := 0 }

/-- A configuration requesting more objects than the grid has cells. -/
def cfgSmall : Config :=
  { cfgBad with width := 1, height := 1, initial_objects := 2 }

/-- The configuration `cfgBad` with its out-of-range values replaced by
in-range ones; the placement-relevant fields are unchanged. -/
def cfgBad2 : Config :=
  { cfgBad with
    pheromone_decay := 1 / 100
    pheromone_deposit := 1
    required_carriers := 2
    max_steps := 5 }

/-- A well-formed small configuration for the determinism witness. -/
def cfgRun : Config :=
  { width := 3, height := 3, initial_agents := 2, initial_objects := 1,
    obstacle_fraction := 0, pheromone_decay := 1 / 100,
    pheromone_deposit := 1, required_carriers := 2, max_steps := 5 }

/-!
## The claims
-/

/-- C1 (counterexample to the claim as stated): there is NO reachable state
in which a heavy object's stored carrier count exceeds `required_carriers`.
The latch in `TransportAgent.step` re-checks `len(current_carriers)` against
the threshold immediately before each insertion, so joins in the same tick
can never push the stored set past `required_carriers`. -/
theorem no_reachable_carrier_overflow :
    ¬ ∃ s0 s : SimState, InitOk s0 ∧ Reachable s0 s ∧
      ∃ o ∈ s.objects, o.required_carriers < o.current_carriers.card := by
  rintro ⟨s0, s, hinit, hreach, o, ho, hlt⟩
  exact absurd (carrierCardBound_of_reachable s0 s hinit hreach o ho)
    (Nat.not_le_of_lt hlt)

/-- C1 (amended): in every reachable state (any activation order, any
`random.choice` outcomes), every heavy object's stored carrier count stays
at or below `required_carriers`; several transporters can still join the
same object within one tick, but each join re-validates the stored count
first. -/
theorem carrier_count_within_required (s0 s : SimState) (hinit : InitOk s0)
    (hreach : Reachable s0 s) :
    ∀ o ∈ s.objects, o.current_carriers.card ≤ o.required_carriers :=
  carrierCardBound_of_reachable s0 s hinit hreach

theorem carrier_count_within_required_witness :
    InitOk sInit ∧
    ∀ o ∈ sInit.objects, o.current_carriers.card ≤ o.required_carriers :=
  ⟨by decide, carrier_count_within_required sInit sInit (by decide)
    Relation.ReflTransGen.refl⟩

/-- C2: the evaporation pass multiplies every cell by `(1 - decay)` and
snaps values below `1e-6` to exactly `0`; it runs exactly once per tick,
after all agent activations (the tick's pheromone field is the evaporation
of the post-activation field); with no deposits, iterated evaporation is
monotonically non-increasing, and a nonnegative cell below `1e-6` becomes
exactly `0`. -/
theorem evaporation_per_tick_spec :
    (∀ sg : SimState × Nat, (modelStep sg).1.pheromone =
      evaporate (activationPhase sg).1.pheromone_decay
        (activationPhase sg).1.pheromone) ∧
    (∀ (d : ℚ) (f : GridPos → ℚ) (p : GridPos), evaporate d f p =
      if f p * (1 - d) < 1 / 1000000 then 0 else f p * (1 - d)) ∧
    (∀ d v : ℚ, 0 ≤ d → d ≤ 1 → 0 ≤ v → ∀ n : Nat,
      (evapCell d)^[n + 1] v ≤ (evapCell d)^[n] v) ∧
    (∀ d v : ℚ, 0 ≤ d → d ≤ 1 → 0 ≤ v → v < 1 / 1000000 →
      evapCell d v = 0) :=
  ⟨fun sg => tickEnd_pheromone (activationPhase sg).1,
   fun _ _ _ => rfl,
   fun d v h0 h1 hv n => evapCell_iter_mono d v h0 h1 hv n,
   fun d v h0 h1 hv hs => evapCell_snap d v h0 h1 hv hs⟩

theorem evaporation_per_tick_spec_witness :
    ((0 : ℚ) ≤ 1 / 2 ∧ (1 / 2 : ℚ) ≤ 1 ∧ (0 : ℚ) ≤ 5 ∧
      (1 / 2000000 : ℚ) < 1 / 1000000) ∧
    (evapCell (1 / 2))^[0 + 1] 5 ≤ (evapCell (1 / 2))^[0] 5 ∧
    evapCell (1 / 2) (1 / 2000000) = 0 :=
  ⟨⟨by norm_num, by norm_num, by norm_num, by norm_num⟩,
   evaporation_per_tick_spec.2.2.1 (1 / 2) 5 (by norm_num) (by norm_num)
     (by norm_num) 0,
   evaporation_per_tick_spec.2.2.2 (1 / 2) (1 / 2000000) (by norm_num)
     (by norm_num) (by norm_num) (by norm_num)⟩

/-- C3: a transporter that is not latched and does not stand on an
uncompleted heavy object deposits the fixed pheromone amount at its cell
(recording it in `last_deposit`) and leaves the object list alone; among the
obstacle-free Moore survivors it moves, over every `random.choice` outcome,
exactly onto the cells tied at the maximum pheromone value when that maximum
is positive, exactly onto the survivors otherwise, and stays in place with
no fault when no survivor exists. -/
theorem searching_transporter_behavior (w h : Nat)
    (obstacles : List GridPos) (deposit : ℚ) (objects : List HeavyObject)
    (pher : GridPos → ℚ) (a : TransportAgent) (choice : Nat)
    (hg : ¬(a.latching = true ∧ a.carrying_object_id ≠ none))
    (hnh : ∀ o ∈ objects, o.pos = a.pos → o.completed = true) :
    (∀ p : GridPos,
      (TransportAgent.step w h obstacles deposit objects pher a choice).2.2 p
        = (if p = a.pos then pher p + deposit else pher p)) ∧
    (TransportAgent.step w h obstacles deposit objects pher a
      choice).1.last_deposit = deposit ∧
    (TransportAgent.step w h obstacles deposit objects pher a choice).2.1 =
      objects ∧
    (free_cells obstacles (moore_neighborhood w h a.pos) = [] →
      (TransportAgent.step w h obstacles deposit objects pher a
        choice).1.pos = a.pos) ∧
    (0 < top_pher (leave_pheromone deposit pher a).1
        (free_cells obstacles (moore_neighborhood w h a.pos)) →
      ((TransportAgent.step w h obstacles deposit objects pher a
          choice).1.pos ∈
            free_cells obstacles (moore_neighborhood w h a.pos) ∧
        (leave_pheromone deposit pher a).1
          (TransportAgent.step w h obstacles deposit objects pher a
            choice).1.pos =
          top_pher (leave_pheromone deposit pher a).1
            (free_cells obstacles (moore_neighborhood w h a.pos))) ∧
      (∀ c ∈ free_cells obstacles (moore_neighborhood w h a.pos),
        (leave_pheromone deposit pher a).1 c =
          top_pher (leave_pheromone deposit pher a).1
            (free_cells obstacles (moore_neighborhood w h a.pos)) →
        ∃ k, (TransportAgent.step w h obstacles deposit objects pher a
          k).1.pos = c)) ∧
    (¬ 0 < top_pher (leave_pheromone deposit pher a).1
        (free_cells obstacles (moore_neighborhood w h a.pos)) →
      free_cells obstacles (moore_neighborhood w h a.pos) ≠ [] →
      ((TransportAgent.step w h obstacles deposit objects pher a
          choice).1.pos ∈
          free_cells obstacles (moore_neighborhood w h a.pos)) ∧
      (∀ c ∈ free_cells obstacles (moore_neighborhood w h a.pos),
        ∃ k, (TransportAgent.step w h obstacles deposit objects pher a
          k).1.pos = c)) := by
  have heq := step_on_objects_no_heavy a objects hnh
  have heK : ∀ k, TransportAgent.step w h obstacles deposit objects pher a k
      = (move_by_pheromone_or_random w h obstacles
          (leave_pheromone deposit pher a).1
          (leave_pheromone deposit pher a).2 k,
         objects, (leave_pheromone deposit pher a).1) :=
    fun k => transport_step_eq_no_heavy w h obstacles deposit objects pher
      a k hg heq
  obtain ⟨hm1, hm2, hm3⟩ := move_by_pheromone_spec w h obstacles
    (leave_pheromone deposit pher a).1 (leave_pheromone deposit pher a).2
  refine ⟨?_, ?_, ?_, ?_, ?_, ?_⟩
  · intro p
    rw [heK choice]
    rfl
  · rw [heK choice]
    exact (move_by_pheromone_fields w h obstacles
      (leave_pheromone deposit pher a).1
      (leave_pheromone deposit pher a).2 choice).2.2.2
  · rw [heK choice]
  · intro hemp
    rw [heK choice]
    exact hm1 hemp choice
  · intro hpos
    constructor
    · rw [heK choice]
      exact (hm2 hpos).1 choice
    · intro c hc ht
      obtain ⟨k, hk⟩ := (hm2 hpos).2 c hc ht
      exact ⟨k, by rw [heK k]; exact hk⟩
  · intro hneg hnotemp
    constructor
    · rw [heK choice]
      exact (hm3 hneg hnotemp).1 choice
    · intro c hc
      obtain ⟨k, hk⟩ := (hm3 hneg hnotemp).2 c hc
      exact ⟨k, by rw [heK k]; exact hk⟩

theorem searching_transporter_behavior_witness :
    (¬(agInit.latching = true ∧ agInit.carrying_object_id ≠ none)) ∧
    (∀ o ∈ [objInit], o.pos = agInit.pos → o.completed = true) ∧
    (TransportAgent.step 2 2 [] 1 [objInit] (fun _ => 0) agInit
      0).1.last_deposit = 1 :=
  ⟨by decide, by decide,
   (searching_transporter_behavior 2 2 [] 1 [objInit] (fun _ => 0) agInit 0
     (by decide) (by decide)).2.1⟩

/-- C4: in every reachable state a heavy object reports `completed = true`
only while sitting on its `dropoff_cell`; and on the arrival step (the gate
passed, a valid move existed, and the drawn move equals `dropoff_cell`) the
step sets `completed`, stamps `completion_time`, finalizes
`max_carriers_used` against the live-carrier count, empties
`current_carriers`, and detaches and relocates every live carrier. -/
theorem completion_only_at_dropoff (s0 s : SimState) (hinit : InitOk s0)
    (hreach : Reachable s0 s) :
    (∀ o ∈ s.objects, o.completed = true → o.pos = o.dropoff_cell) ∧
    (∀ (w h : Nat) (obstacles : List GridPos) (t : Nat)
      (agents : List TransportAgent) (o : HeavyObject) (choice : Nat),
      o.completed = false →
      o.required_carriers ≤ (live_carriers agents o).length →
      heavy_valid_moves w h obstacles o ≠ [] →
      (heavy_valid_moves w h obstacles o).getD
        (choice % (heavy_valid_moves w h obstacles o).length) (0, 0) =
        o.dropoff_cell →
      (HeavyObject.step w h obstacles t agents o choice).1.completed =
        true ∧
      (HeavyObject.step w h obstacles t agents o choice).1.pos =
        o.dropoff_cell ∧
      (HeavyObject.step w h obstacles t agents o choice).1.completion_time =
        some t ∧
      (HeavyObject.step w h obstacles t agents o
        choice).1.max_carriers_used =
        max o.max_carriers_used (live_carriers agents o).length ∧
      (HeavyObject.step w h obstacles t agents o
        choice).1.current_carriers = ∅ ∧
      (HeavyObject.step w h obstacles t agents o choice).2 =
        move_carriers o.pos o.dropoff_cell o.current_carriers true agents ∧
      ∀ b ∈ live_carriers agents o,
        { b with
          pos := o.dropoff_cell, latching := false,
          carrying_object_id := none } ∈
          (HeavyObject.step w h obstacles t agents o choice).2) :=
  ⟨fun o ho hc => (completedInv_of_reachable s0 s hinit hreach o ho hc).1,
   fun w h obstacles t agents o choice hc hge hvm hd =>
     heavy_step_arrival w h obstacles t agents o choice hc hge hvm hd⟩

theorem completion_only_at_dropoff_witness :
    InitOk sInit ∧
    (∀ o ∈ sInit.objects, o.completed = true → o.pos = o.dropoff_cell) :=
  ⟨by decide, (completion_only_at_dropoff sInit sInit (by decide)
    Relation.ReflTransGen.refl).1⟩

/-- C5: in every reachable state, every completed heavy object satisfies
`required_carriers ≤ max_carriers_used` (it only moved, hence completed,
while its re-derived live-carrier count met the threshold, and
`max_carriers_used` is a running maximum of that count). -/
theorem completed_object_met_required (s0 s : SimState) (hinit : InitOk s0)
    (hreach : Reachable s0 s) :
    ∀ o ∈ s.objects, o.completed = true →
      o.required_carriers ≤ o.max_carriers_used :=
  fun o ho hc => (completedInv_of_reachable s0 s hinit hreach o ho hc).2

theorem completed_object_met_required_witness :
    InitOk sInit ∧
    (∀ o ∈ sInit.objects, o.completed = true →
      o.required_carriers ≤ o.max_carriers_used) :=
  ⟨by decide, completed_object_met_required sInit sInit (by decide)
    Relation.ReflTransGen.refl⟩

/-- C6: when `required_carriers` exceeds the number of transporters in the
run, no heavy object ever moves or completes in any reachable state, and the
running flag is cleared only by the tick counter reaching `max_steps`, never
by the completion condition. -/
theorem understaffed_object_never_completes (s0 s : SimState)
    (hinit : InitOk s0)
    (hreq : ∀ o ∈ s0.objects, s0.agents.length < o.required_carriers)
    (hne : s0.objects ≠ []) (hreach : Reachable s0 s) :
    (∀ (i : Nat) (hi0 : i < s0.objects.length) (hi : i < s.objects.length),
      (s.objects.get ⟨i, hi⟩).pos = (s0.objects.get ⟨i, hi0⟩).pos ∧
      (s.objects.get ⟨i, hi⟩).completed = false) ∧
    (s.running = false → s.max_steps ≤ s.step_count) := by
  obtain ⟨_, hF, _, _, hrun⟩ :=
    understaffed_of_reachable s0 s hinit hreq hne hreach
  obtain ⟨_, hget⟩ := List.forall₂_iff_get.mp hF
  exact ⟨fun i hi0 hi => ⟨(hget i hi0 hi).1, (hget i hi0 hi).2.1⟩, hrun⟩

theorem understaffed_object_never_completes_witness :
    InitOk sInit ∧
    (∀ o ∈ sInit.objects, sInit.agents.length < o.required_carriers) ∧
    sInit.objects ≠ [] ∧
    (sInit.running = false → sInit.max_steps ≤ sInit.step_count) :=
  ⟨by decide, by decide, by decide,
   (understaffed_object_never_completes sInit sInit (by decide) (by decide)
     (by decide) Relation.ReflTransGen.refl).2⟩

/-- C7 (counterexample to the claim as stated): a configuration that is out
of range in four of the claimed ways (`required_carriers < 1`,
`pheromone_decay` outside `[0,1)`, non-positive `max_steps`, non-positive
`pheromone_deposit`) is accepted: construction succeeds instead of raising.
-/
theorem out_of_range_config_accepted :
    cfgBad.required_carriers < 1 ∧
    ¬ cfgBad.pheromone_decay < 1 ∧
    cfgBad.max_steps < 1 ∧
    cfgBad.pheromone_deposit ≤ 0 ∧
    exceptOk (initModel cfgBad 1) = true := by
  refine ⟨by decide, by norm_num [cfgBad], by decide, by norm_num [cfgBad],
    ?_⟩
  have hcnt : obstacleCount cfgBad.width cfgBad.height
      cfgBad.obstacle_fraction = 0 := by
    norm_num [obstacleCount, ratTrunc, cfgBad]
    simp [Rat.floor]
  unfold initModel
  rw [exceptOk_map]
  unfold placeAll
  rw [hcnt]
  decide

/-- C7 (amended): the only errors raised at construction, before any tick,
are the `random.sample` insufficiency errors, and they are characterized
exactly: construction fails if and only if the computed obstacle count is
negative or exceeds the number of grid cells, or more objects are requested
than the cells left empty by the sampled obstacles, or more transporters
are requested than the cells left empty by the sampled obstacles and
objects.  Out-of-range values of the remaining options (`pheromone_decay`,
`pheromone_deposit`, `required_carriers`, `max_steps`) are not validated at
all: whether construction succeeds does not depend on them.  All
simulation-time step functions of the embedding are total, so no operation
fails during a run. -/
theorem construction_error_conditions :
    (∀ (cfg : Config) (seed : Nat),
      exceptOk (initModel cfg seed) = false ↔
      (obstacleCount cfg.width cfg.height cfg.obstacle_fraction < 0 ∨
        ((cfg.width * cfg.height : Nat) : Int) <
          obstacleCount cfg.width cfg.height cfg.obstacle_fraction) ∨
      (∃ (obsPos : List GridPos) (g1 : Nat),
        sampleInt ((0 : Int), (0 : Int)) (allPositions cfg.width cfg.height)
          (obstacleCount cfg.width cfg.height cfg.obstacle_fraction) seed =
          Except.ok (obsPos, g1) ∧
        (emptyAfter (allPositions cfg.width cfg.height) obsPos).length <
          cfg.initial_objects) ∨
      (∃ (obsPos : List GridPos) (g1 : Nat) (objPos : List GridPos)
          (g2 : Nat),
        sampleInt ((0 : Int), (0 : Int)) (allPositions cfg.width cfg.height)
          (obstacleCount cfg.width cfg.height cfg.obstacle_fraction) seed =
          Except.ok (obsPos, g1) ∧
        sampleInt ((0 : Int), (0 : Int))
          (emptyAfter (allPositions cfg.width cfg.height) obsPos)
          (cfg.initial_objects : Int) g1 = Except.ok (objPos, g2) ∧
        (emptyAfter (emptyAfter (allPositions cfg.width cfg.height) obsPos)
          objPos).length < cfg.initial_agents)) ∧
    (∀ (cfg cfg2 : Config) (seed : Nat),
      cfg.width = cfg2.width → cfg.height = cfg2.height →
      cfg.initial_agents = cfg2.initial_agents →
      cfg.initial_objects = cfg2.initial_objects →
      cfg.obstacle_fraction = cfg2.obstacle_fraction →
      exceptOk (initModel cfg seed) = exceptOk (initModel cfg2 seed)) :=
  ⟨initModel_fail_iff, initModel_ok_ignores_values⟩

theorem construction_error_conditions_witness :
    exceptOk (initModel cfgSmall 1) = false ∧
    exceptOk (initModel cfgBad 1) = exceptOk (initModel cfgBad2 1) := by
  constructor
  · refine (construction_error_conditions.1 cfgSmall 1).mpr
      (Or.inr (Or.inl ⟨[], 1, ?_, ?_⟩))
    · have hcnt : obstacleCount cfgSmall.width cfgSmall.height
          cfgSmall.obstacle_fraction = 0 := by
        norm_num [obstacleCount, ratTrunc, cfgSmall, cfgBad]
        simp [Rat.floor]
      rw [hcnt]
      rfl
    · decide
  · exact construction_error_conditions.2 cfgBad cfgBad2 1 rfl rfl rfl rfl rfl

/-- C8: two runs with identical configuration and the same fixed seed are
the same function value — construction, every per-tick shuffled activation
order, every move, and the final state coincide. -/
theorem fixed_seed_runs_identical (cfg1 cfg2 : Config)
    (seed1 seed2 n : Nat) (hc : cfg1 = cfg2) (hs : seed1 = seed2) :
    runModel cfg1 seed1 n = runModel cfg2 seed2 n := by
  subst hc
  subst hs
  rfl

theorem fixed_seed_runs_identical_witness :
    cfgRun = cfgRun ∧
    runModel cfgRun 42 2 = runModel cfgRun 42 2 :=
  ⟨rfl, fixed_seed_runs_identical cfgRun cfgRun 42 42 2 rfl rfl⟩

/-- C9: a heavy object whose initial position equals its dropoff cell never
moves and is never marked completed, in any reachable state, no matter how
many carriers latch: with both axis gaps zero its step generates no movement
candidates, and `completed` is only ever set right after a move. -/
theorem object_at_dropoff_never_completes (s0 s : SimState)
    (hreach : Reachable s0 s) :
    ∀ (i : Nat) (hi0 : i < s0.objects.length) (hi : i < s.objects.length),
      (s0.objects.get ⟨i, hi0⟩).pos =
        (s0.objects.get ⟨i, hi0⟩).dropoff_cell →
      (s0.objects.get ⟨i, hi0⟩).completed = false →
      (s.objects.get ⟨i, hi⟩).pos = (s.objects.get ⟨i, hi⟩).dropoff_cell ∧
      (s.objects.get ⟨i, hi⟩).completed = false := by
  have hF := atDropoffFrozen_of_reachable s0 s hreach
  obtain ⟨_, hget⟩ := List.forall₂_iff_get.mp hF
  intro i hi0 hi hp hc
  obtain ⟨h1, h2, h3⟩ := hget i hi0 hi ⟨hp, hc⟩
  exact ⟨by rw [h1, h3]; exact hp, h2⟩

theorem object_at_dropoff_never_completes_witness :
    (sDrop.objects.get ⟨0, by decide⟩).pos =
      (sDrop.objects.get ⟨0, by decide⟩).dropoff_cell ∧
    (sDrop.objects.get ⟨0, by decide⟩).completed = false :=
  object_at_dropoff_never_completes sDrop sDrop
    Relation.ReflTransGen.refl 0 (by decide) (by decide) (by decide)
    (by decide)

/-- C10: in every reachable state every identifier in a heavy object's
`current_carriers` belongs to a transporter standing on the object's cell,
latched, with `carrying_object_id` referring to that object; hence the
per-tick re-derived live-carrier list always matches the stored carrier set,
in size and in membership. -/
theorem carrier_set_transporter_correspondence (s0 s : SimState)
    (hinit : InitOk s0) (hreach : Reachable s0 s) :
    (∀ o ∈ s.objects, ∀ u ∈ o.current_carriers,
      ∃ b ∈ s.agents, b.uid = u ∧ b.pos = o.pos ∧ b.latching = true ∧
        b.carrying_object_id = some o.uid) ∧
    (∀ o ∈ s.objects,
      (live_carriers s.agents o).length = o.current_carriers.card ∧
      ∀ u, u ∈ (live_carriers s.agents o).map TransportAgent.uid ↔
        u ∈ o.current_carriers) := by
  obtain ⟨hndA, _, hlink⟩ := simInv_of_reachable s0 s hinit hreach
  exact ⟨hlink,
    fun o ho => live_eq_stored s.objects s.agents hndA hlink o ho⟩

theorem carrier_set_transporter_correspondence_witness :
    InitOk sInit ∧
    (∀ o ∈ sInit.objects,
      (live_carriers sInit.agents o).length = o.current_carriers.card) :=
  ⟨by decide, fun o ho => ((carrier_set_transporter_correspondence sInit
    sInit (by decide) Relation.ReflTransGen.refl).2 o ho).1⟩
